import Mathlib

/-!
Verification development for the lms-backend repository.

The definitions below are a shallow embedding of the repository's data model
and of the request handlers the claims are about.  Database tables are lists
of rows, Prisma queries become list operations, timestamps are integers
(milliseconds since the epoch), and HTTP responses are an explicit result
type.  External collaborators (node crypto, jsonwebtoken, bcrypt) are modelled
by executable Lean functions that preserve exactly the structure the handlers
rely on: determinism of digests, signature/expiry checking of JWTs.
-/

set_option linter.unusedVariables false

namespace LmsBackend

/-- Role enum, from prisma migration 20250909115959_init. -/
inductive Role where
  | STUDENT | INSTRUCTOR | ADMIN
deriving DecidableEq, Repr

/-- EnrollmentStatus enum, from prisma migration 20250909115959_init. -/
inductive EnrollmentStatus where
  | PENDING | PAID | CANCELLED | REFUNDED
deriving DecidableEq, Repr

/-- QuestionType enum, from prisma migration 20250930140904. -/
inductive QuestionType where
  | MULTIPLE_CHOICE | TRUE_FALSE | SHORT_ANSWER
deriving DecidableEq, Repr

/-- Lesson type enum from the zod createLessonSchema in the instructor controller. -/
inductive LessonType where
  | VIDEO | ARTICLE | QUIZ
deriving DecidableEq, Repr

/-- The authenticated requester attached to a request by the auth middleware
(req.user : id and role). -/
structure AuthUser where
  id : String
  role : Role
deriving DecidableEq, Repr

/-- An HTTP response: either an error with a status code and message, or a
success with a status code and a payload. -/
inductive HttpResult (α : Type) where
  | err (status : Nat) (message : String)
  | ok (status : Nat) (value : α)
deriving DecidableEq, Repr

namespace HttpResult

def statusOf : HttpResult α → Nat
  | .err s _ => s
  | .ok s _ => s

def isOk : HttpResult α → Bool
  | .ok _ _ => true
  | .err _ _ => false

end HttpResult

/-! ## Auth module: tokens (src/utils/token.ts, compiled as dist/src/utils/token.js)

A JWT is modelled as a record of its payload, the secret that signed it and
its issued-at/expiry instants; `jwtVerify` accepts it exactly when the secret
matches and it has not expired, which is the behaviour of jsonwebtoken the
handlers depend on. -/

structure Jwt where
  userId : String
  /-- Access tokens carry the role claim; refresh tokens do not. -/
  role : Option Role
  secret : String
  iat : Int
  exp : Int
deriving DecidableEq, Repr

/-- Model of the JWT_ACCESS_SECRET environment variable. -/
def JWT_ACCESS_SECRET : String := "env-jwt-access-secret"

/-- Model of the JWT_REFRESH_SECRET environment variable. -/
def JWT_REFRESH_SECRET : String := "env-jwt-refresh-secret"

/-- expiresIn of generateAccessToken: the string "60m" (token.js). -/
def accessTokenLifetimeMs : Int := 60 * 60 * 1000

/-- expiresIn of generateRefreshToken: the string "50m" (token.js).  The
source comment itself reads: 50 minutes (less than access token). -/
def refreshTokenLifetimeMs : Int := 50 * 60 * 1000

/-- expiresAt stored by generateTokens on the RefreshToken row:
Date.now() + 50 * 60 * 1000 (token.js). -/
def refreshTokenDbLifetimeMs : Int := 50 * 60 * 1000

/-- The repository also contains a second build of token.js in which the
access token lasts "15m"; the project status document (part_007) presents
that pair as the required fix for the token-expiry bug. -/
def accessTokenLifetimeMsFixed : Int := 15 * 60 * 1000

/-- The refresh expiry "7d" of the fixed build of token.js. -/
def refreshTokenLifetimeMsFixed : Int := 7 * 24 * 60 * 60 * 1000

/-- jwt.sign of the access-token payload with JWT_ACCESS_SECRET (token.js
generateAccessToken). -/
def generateAccessToken (now : Int) (userId : String) (role : Role) : Jwt :=
  { userId := userId, role := some role, secret := JWT_ACCESS_SECRET,
    iat := now, exp := now + accessTokenLifetimeMs }

/-- jwt.sign of the refresh-token payload with JWT_REFRESH_SECRET (token.js
generateRefreshToken). -/
def generateRefreshToken (now : Int) (userId : String) : Jwt :=
  { userId := userId, role := none, secret := JWT_REFRESH_SECRET,
    iat := now, exp := now + refreshTokenLifetimeMs }

/-- jwt.verify: succeeds with the decoded userId exactly when the token was
signed with the given secret and has not expired. -/
def jwtVerify (t : Jwt) (secret : String) (now : Int) : Option String :=
  if t.secret == secret && now < t.exp then some t.userId else none

/-- Serialization of a token, standing for the compact JWS string the real
jwt.sign produces (distinct tokens serialize differently). -/
def serializeJwt (t : Jwt) : String :=
  t.userId ++ "." ++ (match t.role with
    | some .STUDENT => "STUDENT"
    | some .INSTRUCTOR => "INSTRUCTOR"
    | some .ADMIN => "ADMIN"
    | none => "") ++ "." ++ t.secret ++ "." ++ toString t.iat ++ "." ++ toString t.exp

/-- The digest algorithms node crypto.createHash accepts.  The name "sha26"
used by the logout handler is not among them, so createHash("sha26") throws. -/
def supportedHashAlgorithms : List String := ["sha256", "sha512", "sha1", "md5"]

/-- Model of crypto.createHash(alg).update(data).digest("hex"): a
deterministic digest of the input data, failing for an unsupported algorithm
name exactly as node crypto throws. -/
def createHashHex (alg : String) (data : String) : Except String String :=
  if alg ∈ supportedHashAlgorithms then
    .ok (alg ++ "-digest(" ++ data ++ ")")
  else
    .error ("Digest method not supported: " ++ alg)

/-- crypto.createHash("sha256").update(serialized token).digest("hex"), the
digest every token-storing code path computes.  Its only input is the token
itself: the source passes no salt. -/
def sha256Hex (t : Jwt) : String := "sha256-digest(" ++ serializeJwt t ++ ")"

theorem createHashHex_sha256 (t : Jwt) :
    createHashHex "sha256" (serializeJwt t) = .ok (sha256Hex t) := rfl

/-! ## Auth module: database rows and state -/

/-- User row (init migration): id, email, name, passwordHash, role. -/
structure User where
  id : String
  email : String
  name : String
  role : Role
  passwordHash : String
deriving DecidableEq, Repr

/-- RefreshToken row (init migration): tokenHash, userId, expiresAt.  The
serial id column plays no role in any handler and is not modelled. -/
structure StoredRefreshToken where
  tokenHash : String
  userId : String
  expiresAt : Int
deriving DecidableEq, Repr

/-- PasswordResetToken row used by forgotPassword/resetPassword. -/
structure StoredResetToken where
  id : String
  token : String
  userId : String
  expiresAt : Int
deriving DecidableEq, Repr

/-- The tables the auth controllers read and write. -/
structure AuthDB where
  users : List User
  refreshTokens : List StoredRefreshToken
  resetTokens : List StoredResetToken
deriving DecidableEq, Repr

/-- Model of bcrypt hashPassword (utils/password).  Determinism of this model
is never used by a theorem; only the fact that resetPassword overwrites the
stored hash with the hash of the new password matters. -/
def hashPassword (password : String) : String := "bcrypt(" ++ password ++ ")"

/-- bcrypt comparePassword against a stored hash. -/
def comparePassword (password storedHash : String) : Bool :=
  storedHash == hashPassword password

/-! ## Auth controllers (src/controllers/authControllers.ts, compiled as
dist/src/controllers/authControllers.js) -/

/-- Payload of a successful login/refresh response. -/
structure TokensPayload where
  accessToken : Jwt
  refreshTokenValue : Option Jwt
  userId : String
deriving DecidableEq, Repr

/-- login: find user by email (404), compare password (401), sign both
tokens, store the SHA-256 digest of the refresh token with
expiresAt = now + 7 days, and return both tokens. -/
def login (db : AuthDB) (now : Int) (email password : String) :
    HttpResult TokensPayload × AuthDB :=
  match db.users.find? (fun u => u.email == email) with
  | none => (.err 404 "User not found", db)
  | some user =>
    if ¬ comparePassword password user.passwordHash then
      (.err 401 "Invalid credentials", db)
    else
      let accessToken := generateAccessToken now user.id user.role
      let refreshTok := generateRefreshToken now user.id
      let hashedRefreshToken := sha256Hex refreshTok
      let stored : StoredRefreshToken :=
        { tokenHash := hashedRefreshToken, userId := user.id,
          expiresAt := now + 7 * 24 * 60 * 60 * 1000 }
      (.ok 200 { accessToken := accessToken, refreshTokenValue := some refreshTok,
                 userId := user.id },
       { db with refreshTokens := db.refreshTokens ++ [stored] })

/-- generateTokens (token.js): sign both tokens, store the SHA-256 digest of
the refresh token with expiresAt = now + 50 minutes, return both. -/
def generateTokens (db : AuthDB) (now : Int) (userId : String) (role : Role) :
    (Jwt × Jwt) × AuthDB :=
  let accessToken := generateAccessToken now userId role
  let refreshTok := generateRefreshToken now userId
  let hashedToken := sha256Hex refreshTok
  let stored : StoredRefreshToken :=
    { tokenHash := hashedToken, userId := userId,
      expiresAt := now + refreshTokenDbLifetimeMs }
  ((accessToken, refreshTok), { db with refreshTokens := db.refreshTokens ++ [stored] })

/-- The refresh endpoint.  It hashes the presented token, looks the digest up
in the RefreshToken table (403 if absent), verifies the JWT against the
refresh secret (403 on failure), loads the user (404 if missing) and responds
with a freshly signed access token.  It performs no write at all: the stored
record is kept and no new refresh token is issued. -/
def refreshTokenHandler (db : AuthDB) (now : Int) (body : Option Jwt) :
    HttpResult TokensPayload × AuthDB :=
  match body with
  | none => (.err 400 "Refresh token required", db)
  | some rt =>
    let hashedToken := sha256Hex rt
    match db.refreshTokens.find? (fun s => s.tokenHash == hashedToken) with
    | none => (.err 403 "Invalid refresh token", db)
    | some _ =>
      match jwtVerify rt JWT_REFRESH_SECRET now with
      | none => (.err 403 "Invalid refresh token", db)
      | some decodedUserId =>
        match db.users.find? (fun u => u.id == decodedUserId) with
        | none => (.err 404 "User not found", db)
        | some user =>
          (.ok 200 { accessToken := generateAccessToken now user.id user.role,
                     refreshTokenValue := none, userId := user.id }, db)

/-- resetPassword: look the token up (400 if absent or expired — the code
rejects exactly when expiresAt < now), hash the new password, overwrite the
user row's passwordHash, delete the reset-token record. -/
def resetPassword (db : AuthDB) (now : Int) (token newPassword : String) :
    HttpResult String × AuthDB :=
  match db.resetTokens.find? (fun r => r.token == token) with
  | none => (.err 400 "Invalid or expired token", db)
  | some resetRecord =>
    if resetRecord.expiresAt < now then
      (.err 400 "Invalid or expired token", db)
    else
      let hashed := hashPassword newPassword
      let users := db.users.map (fun u =>
        if u.id == resetRecord.userId then { u with passwordHash := hashed } else u)
      let resetTokens := db.resetTokens.filter (fun r => r.id != resetRecord.id)
      (.ok 200 "Password reset successful",
       { db with users := users, resetTokens := resetTokens })

/-- logout: hash the presented refresh token with the algorithm name "sha26"
(sic) and delete the matching RefreshToken rows.  Since "sha26" is not a
digest algorithm node crypto knows, createHash throws before the delete runs
and the catch block answers 500. -/
def logout (db : AuthDB) (body : Option Jwt) : HttpResult String × AuthDB :=
  match body with
  | none => (.err 400 "Refresh token required", db)
  | some rt =>
    match createHashHex "sha26" (serializeJwt rt) with
    | .error _ => (.err 500 "Something went wrong", db)
    | .ok hashedRefreshToken =>
      (.ok 200 "Logged out successfully",
       { db with refreshTokens :=
          db.refreshTokens.filter (fun s => s.tokenHash != hashedRefreshToken) })

/-! ## Course domain: rows (prisma migrations) -/

/-- Course row; only the columns the claims touch are carried (id,
instructorId and the denormalized rating column added by migration
20251002125042 with DOUBLE PRECISION NOT NULL DEFAULT 0, modelled as an
exact rational). -/
structure Course where
  id : String
  title : String
  instructorId : String
  rating : Rat
deriving DecidableEq, Repr

/-- Curriculum row (migration 20250930140904). -/
structure Curriculum where
  id : String
  courseId : String
  title : String
  description : Option String
  position : Int
deriving DecidableEq, Repr

/-- Lesson row (init migration, plus curriculumId from 20250930140904 and
duration/type from the later migrations). -/
structure Lesson where
  id : String
  courseId : String
  curriculumId : Option String
  title : String
  content : Option String
  videoUrl : Option String
  docUrl : Option String
  duration : Option Int
  type : LessonType
  isPreview : Bool
  position : Int
deriving DecidableEq, Repr

/-- Quiz row (migration 20250930140904): linked to a course. -/
structure Quiz where
  id : String
  title : String
  courseId : String
deriving DecidableEq, Repr

/-- Question row (migration 20250930140904). -/
structure Question where
  id : String
  text : String
  type : QuestionType
  options : List String
  correctAnswer : String
  quizId : String
deriving DecidableEq, Repr

/-- Review row (migration 20250930140904, title added by 20251009075845). -/
structure Review where
  id : String
  courseId : String
  authorId : String
  rating : Int
  title : Option String
  comment : String
deriving DecidableEq, Repr

/-- Enrollment row (init migration). -/
structure Enrollment where
  id : String
  studentId : String
  courseId : String
  status : EnrollmentStatus
deriving DecidableEq, Repr

/-- The course-domain tables the instructor/student controllers touch. -/
structure LmsDB where
  courses : List Course
  curricula : List Curriculum
  lessons : List Lesson
  quizzes : List Quiz
  questions : List Question
  reviews : List Review
  enrollments : List Enrollment
deriving DecidableEq, Repr

/-- The unique indexes the prisma migrations create, as (table, columns)
pairs.  This is the complete list over all six migration files; none of them
is on the Review table. -/
def migrationUniqueIndexes : List (String × List String) :=
  [("User", ["email"]),
   ("Enrollment", ["txRef"]),
   ("Certificate", ["code"]),
   ("Enrollment", ["studentId", "courseId"]),
   ("StudentProfile", ["userId"]),
   ("InstructorProfile", ["userId"]),
   ("AdminProfile", ["userId"]),
   ("RefreshToken", ["tokenHash"])]

/-! ## Ownership check (utils/checkCourseOwnership.ts) -/

/-- checkCourseOwnership: load the course (throws 404 if absent), throw 403
when an INSTRUCTOR requester does not own it; admins are always allowed.  The
thrown object is modelled as an Except error carrying (status, message); the
source 403 message uses a contraction and is paraphrased here without it. -/
def checkCourseOwnership (db : LmsDB) (courseId : String) (user : AuthUser) :
    Except (Nat × String) Course :=
  match db.courses.find? (fun c => c.id == courseId) with
  | none => .error (404, "Course not found.")
  | some course =>
    if user.role == Role.INSTRUCTOR && course.instructorId != user.id then
      .error (403, "You do not own this course.")
    else
      .ok course

/-! ## Quiz handlers (instructor controller) -/

/-- createQuiz (POST /api/instructor/courses/:courseId/quizzes).  The route
applies only the authenticate middleware, and the handler body performs no
role or ownership check: it immediately creates the quiz connected to the
course.  A failing connect (course absent, prisma P2025) is caught by the
generic catch, answering 500.  The requester is a parameter to make its
absence from the logic visible. -/
def createQuiz (db : LmsDB) (newId courseId : String) (user : Option AuthUser)
    (title : String) : HttpResult Quiz × LmsDB :=
  match db.courses.find? (fun c => c.id == courseId) with
  | none => (.err 500 "Internal Server Error", db)
  | some _ =>
    let quiz : Quiz := { id := newId, title := title, courseId := courseId }
    (.ok 201 quiz, { db with quizzes := db.quizzes ++ [quiz] })

/-- addQuestionToQuiz (POST /api/instructor/quizzes/:quizId/questions).  Like
createQuiz, the route applies only authenticate and the handler performs no
role or ownership check before inserting the question. -/
def addQuestionToQuiz (db : LmsDB) (newId quizId : String) (user : Option AuthUser)
    (text : String) (qType : QuestionType) (options : List String)
    (correctAnswer : String) : HttpResult Question × LmsDB :=
  match db.quizzes.find? (fun q => q.id == quizId) with
  | none => (.err 500 "Internal Server Error", db)
  | some _ =>
    let question : Question :=
      { id := newId, text := text, type := qType, options := options,
        correctAnswer := correctAnswer, quizId := quizId }
    (.ok 201 question, { db with questions := db.questions ++ [question] })

/-! ## Review handlers -/

/-- The reviews attached to a course (prisma.review.findMany where courseId). -/
def courseReviews (db : LmsDB) (courseId : String) : List Review :=
  db.reviews.filter (fun r => r.courseId == courseId)

/-- allReviews.reduce((sum, r) => sum + r.rating, 0). -/
def ratingSum (rs : List Review) : Int :=
  rs.foldl (fun s r => s + r.rating) 0

/-- The recomputed running average: reduce(...) / allReviews.length. -/
def averageRating (rs : List Review) : Rat :=
  (ratingSum rs : Rat) / (rs.length : Rat)

/-- prisma.course.update setting the denormalized rating column. -/
def setCourseRating (db : LmsDB) (courseId : String) (value : Rat) : LmsDB :=
  { db with courses := db.courses.map (fun c =>
      if c.id == courseId then { c with rating := value } else c) }

/-- Model of JS String.prototype.trim: strip whitespace from both ends.
(The builtin String.trim is avoided because its byte-position arithmetic does
not reduce inside the kernel.) -/
def jsTrim (s : String) : String :=
  String.mk (((s.data.dropWhile Char.isWhitespace).reverse.dropWhile
    Char.isWhitespace).reverse)

/-- The JS expression (title ? (title.trim() || null) : null) used for the
optional review title. -/
def jsTitleValue (title : Option String) : Option String :=
  match title with
  | none => none
  | some t =>
    if t == "" then none
    else if jsTrim t == "" then none
    else some (jsTrim t)

/-- The JS expression (comment ? (comment.trim() || "") : "") used by
instructorReviewCourse for the review comment. -/
def jsCommentTrim (comment : Option String) : String :=
  match comment with
  | none => ""
  | some c => if c == "" then "" else jsTrim c

/-- Parsed body of the student/instructor review schemas (zod guarantees the
rating is an integer between 1 and 5). -/
structure ReviewInput where
  rating : Int
  title : Option String
  comment : Option String
deriving DecidableEq, Repr

/-- reviewCourse (POST /api/student/courses/:courseId/reviews, part_009):
role gate, PAID-enrollment gate, then prisma.review.create; the course's
rating column is NOT touched by this path.  A create failure (course absent)
is caught and answered 400 with the already-reviewed message. -/
def reviewCourse (db : LmsDB) (newId courseId : String) (user : Option AuthUser)
    (input : ReviewInput) : HttpResult Review × LmsDB :=
  match user with
  | none => (.err 403 "Forbidden: Only students can review a course.", db)
  | some u =>
    if u.role != Role.STUDENT then
      (.err 403 "Forbidden: Only students can review a course.", db)
    else
      match db.enrollments.find? (fun e =>
          e.studentId == u.id && e.courseId == courseId
            && e.status == EnrollmentStatus.PAID) with
      | none => (.err 403 "You must be enrolled in the course to review it.", db)
      | some _ =>
        match db.courses.find? (fun c => c.id == courseId) with
        | none =>
          (.err 400 "Error reviewing course, you may have already submitted a review.", db)
        | some _ =>
          let review : Review :=
            { id := newId, courseId := courseId, authorId := u.id,
              rating := input.rating, title := jsTitleValue input.title,
              comment := input.comment.getD "" }
          (.ok 201 review, { db with reviews := db.reviews ++ [review] })

/-- submitCourseReview (POST /api/student/courses/:courseId/reviews in
studentController.ts): role gate, rating/body validation, course check,
PAID-enrollment gate, duplicate-review check, create, then recompute the
course's average rating over all its reviews and store it. -/
def submitCourseReview (db : LmsDB) (newId courseId : String)
    (user : Option AuthUser) (rating : Int) (title : Option String)
    (body : String) : HttpResult Review × LmsDB :=
  match user with
  | none => (.err 403 "Access denied. Only students can submit reviews.", db)
  | some u =>
    if u.role != Role.STUDENT then
      (.err 403 "Access denied. Only students can submit reviews.", db)
    else if rating < 1 || rating > 5 then
      (.err 400 "Rating must be between 1 and 5", db)
    else if jsTrim body == "" then
      (.err 400 "Review body is required", db)
    else
      match db.courses.find? (fun c => c.id == courseId) with
      | none => (.err 404 "Course not found", db)
      | some _ =>
        match db.enrollments.find? (fun e =>
            e.studentId == u.id && e.courseId == courseId
              && e.status == EnrollmentStatus.PAID) with
        | none => (.err 403 "You must be enrolled in the course to review it.", db)
        | some _ =>
          match db.reviews.find? (fun r =>
              r.courseId == courseId && r.authorId == u.id) with
          | some _ =>
            (.err 400 "You have already submitted a review for this course.", db)
          | none =>
            let review : Review :=
              { id := newId, courseId := courseId, authorId := u.id,
                rating := rating, title := none, comment := jsTrim body }
            let db1 := { db with reviews := db.reviews ++ [review] }
            let allReviews := courseReviews db1 courseId
            let db2 := setCourseRating db1 courseId (averageRating allReviews)
            (.ok 201 review, db2)

/-- instructorReviewCourse (POST /api/instructor/courses/:courseId/reviews):
role gate (INSTRUCTOR or ADMIN), course check, own-course check,
duplicate-review check, create, then recompute and store the course's
average rating. -/
def instructorReviewCourse (db : LmsDB) (newId courseId : String)
    (user : Option AuthUser) (input : ReviewInput) : HttpResult Review × LmsDB :=
  match user with
  | none => (.err 403 "Access denied. Only instructors or admins can submit reviews.", db)
  | some u =>
    if u.role != Role.INSTRUCTOR && u.role != Role.ADMIN then
      (.err 403 "Access denied. Only instructors or admins can submit reviews.", db)
    else
      match db.courses.find? (fun c => c.id == courseId) with
      | none => (.err 404 "Course not found", db)
      | some course =>
        if u.role == Role.INSTRUCTOR && course.instructorId == u.id then
          (.err 400 "Instructors cannot review their own courses.", db)
        else
          match db.reviews.find? (fun r =>
              r.courseId == courseId && r.authorId == u.id) with
          | some _ =>
            (.err 400 "You have already submitted a review for this course.", db)
          | none =>
            let review : Review :=
              { id := newId, courseId := courseId, authorId := u.id,
                rating := input.rating, title := jsTitleValue input.title,
                comment := jsCommentTrim input.comment }
            let db1 := { db with reviews := db.reviews ++ [review] }
            let allReviews := courseReviews db1 courseId
            let db2 := setCourseRating db1 courseId (averageRating allReviews)
            (.ok 201 review, db2)

/-! ## Lesson update/delete with position reindexing (instructor controller) -/

/-- Parsed body of updateLessonSchema: every field optional. -/
structure UpdateLessonData where
  title : Option String := none
  content : Option String := none
  videoUrl : Option String := none
  docUrl : Option String := none
  duration : Option Int := none
  type : Option LessonType := none
  isPreview : Option Bool := none
  position : Option Int := none
  curriculumId : Option String := none
deriving DecidableEq, Repr

/-- prisma.lesson.update applying the provided optional fields to a row. -/
def applyUpdateLesson (l : Lesson) (u : UpdateLessonData) : Lesson :=
  { l with
    title := u.title.getD l.title,
    content := match u.content with | some c => some c | none => l.content,
    videoUrl := match u.videoUrl with | some v => some v | none => l.videoUrl,
    docUrl := match u.docUrl with | some d => some d | none => l.docUrl,
    duration := match u.duration with | some d => some d | none => l.duration,
    type := u.type.getD l.type,
    isPreview := u.isPreview.getD l.isPreview,
    position := u.position.getD l.position,
    curriculumId := match u.curriculumId with | some c => some c | none => l.curriculumId }

/-- The two prisma.lesson.updateMany calls of updateLesson that shift the
other lessons of the course when the target moves from oldPosition to
newPosition: moving up increments the window [newPosition, oldPosition),
moving down decrements the window (oldPosition, newPosition], both excluding
the target row itself. -/
def shiftLessonsForMove (lessons : List Lesson) (courseId lessonId : String)
    (oldPosition newPosition : Int) : List Lesson :=
  if newPosition < oldPosition then
    lessons.map (fun l =>
      if l.courseId == courseId && newPosition ≤ l.position
          && l.position < oldPosition && l.id != lessonId then
        { l with position := l.position + 1 }
      else l)
  else if newPosition > oldPosition then
    lessons.map (fun l =>
      if l.courseId == courseId && oldPosition < l.position
          && l.position ≤ newPosition && l.id != lessonId then
        { l with position := l.position - 1 }
      else l)
  else lessons

/-- updateLesson (PATCH /api/courses/:courseId/lessons/:lessonId): role gate,
ownership check for instructors (the thrown ownership object is caught by the
generic catch and answered 500), findFirst of the lesson in the course (404),
position reindexing when the parsed body carries a changed position, then
prisma.lesson.update of the target row. -/
def updateLesson (db : LmsDB) (courseId lessonId : String)
    (user : Option AuthUser) (u : UpdateLessonData) : HttpResult Lesson × LmsDB :=
  match user with
  | none => (.err 403 "Access denied. Only instructors or admins can update lessons.", db)
  | some au =>
    if au.role != Role.INSTRUCTOR && au.role != Role.ADMIN then
      (.err 403 "Access denied. Only instructors or admins can update lessons.", db)
    else
      match (if au.role == Role.INSTRUCTOR then
               (checkCourseOwnership db courseId au).map (fun _ => ())
             else .ok ()) with
      | .error _ => (.err 500 "Internal Server Error", db)
      | .ok _ =>
        match db.lessons.find? (fun l => l.id == lessonId && l.courseId == courseId) with
        | none => (.err 404 "Lesson not found in this course", db)
        | some lesson =>
          let lessons1 :=
            match u.position with
            | some newPosition =>
              shiftLessonsForMove db.lessons courseId lessonId lesson.position newPosition
            | none => db.lessons
          let lessons2 := lessons1.map (fun l =>
            if l.id == lessonId then applyUpdateLesson l u else l)
          match lessons2.find? (fun l => l.id == lessonId) with
          | some updated => (.ok 200 updated, { db with lessons := lessons2 })
          | none => (.err 500 "Internal Server Error", db)

/-- deleteLesson (DELETE /api/courses/:courseId/lessons/:lessonId): role
gate, ownership check for instructors (a thrown ownership object reaches
handlePrismaError, which answers 500 for non-prisma errors), findFirst (404),
prisma.lesson.delete of the row, then prisma.lesson.updateMany decrementing
the position of every lesson of the course with position > deleted.position. -/
def deleteLesson (db : LmsDB) (courseId lessonId : String)
    (user : Option AuthUser) : HttpResult String × LmsDB :=
  match user with
  | none => (.err 403 "Access denied. Only instructors or admins can delete lessons.", db)
  | some au =>
    if au.role != Role.INSTRUCTOR && au.role != Role.ADMIN then
      (.err 403 "Access denied. Only instructors or admins can delete lessons.", db)
    else
      match (if au.role == Role.INSTRUCTOR then
               (checkCourseOwnership db courseId au).map (fun _ => ())
             else .ok ()) with
      | .error _ => (.err 500 "Unexpected server error while DeleteLesson", db)
      | .ok _ =>
        match db.lessons.find? (fun l => l.id == lessonId && l.courseId == courseId) with
        | none => (.err 404 "Lesson not found in this course", db)
        | some lesson =>
          let remaining := db.lessons.filter (fun l => l.id != lessonId)
          let shifted := remaining.map (fun l =>
            if l.courseId == courseId && l.position > lesson.position then
              { l with position := l.position - 1 }
            else l)
          (.ok 200 "Lesson deleted successfully and positions reordered",
           { db with lessons := shifted })

/-! ## Curriculum update/delete with position reindexing -/

/-- Parsed body of updateCurriculumSchema (createCurriculumSchema.partial()). -/
structure UpdateCurriculumData where
  title : Option String := none
  description : Option String := none
  position : Option Int := none
  lessonIds : Option (List String) := none
deriving DecidableEq, Repr

/-- prisma.curriculum.update applying the provided optional fields (the
handler strips lessonIds from the update payload first). -/
def applyUpdateCurriculum (c : Curriculum) (u : UpdateCurriculumData) : Curriculum :=
  { c with
    title := u.title.getD c.title,
    description := match u.description with | some d => some d | none => c.description,
    position := u.position.getD c.position }

/-- The two prisma.curriculum.updateMany calls of updateCurriculum shifting
the other sections of the course, identical in shape to the lesson version. -/
def shiftCurriculaForMove (curricula : List Curriculum) (courseId curriculumId : String)
    (oldPosition newPosition : Int) : List Curriculum :=
  if newPosition < oldPosition then
    curricula.map (fun c =>
      if c.courseId == courseId && newPosition ≤ c.position
          && c.position < oldPosition && c.id != curriculumId then
        { c with position := c.position + 1 }
      else c)
  else if newPosition > oldPosition then
    curricula.map (fun c =>
      if c.courseId == courseId && oldPosition < c.position
          && c.position ≤ newPosition && c.id != curriculumId then
        { c with position := c.position - 1 }
      else c)
  else curricula

/-- The lessonIds attach/detach block of updateCurriculum.  It validates that
all lessons to attach exist in the course (400 otherwise) and are not held by
another curriculum (400), then sets curriculumId on attached lessons and
clears it on detached ones.  It never touches any position column. -/
def manageCurriculumLessons (db : LmsDB) (courseId curriculumId : String)
    (currentLessonIds newLessonIds : List String) :
    Except (Nat × String) (List Lesson) :=
  let lessonsToAttach := newLessonIds.filter (fun i => ¬ currentLessonIds.contains i)
  let lessonsToDetach := currentLessonIds.filter (fun i => ¬ newLessonIds.contains i)
  let found := db.lessons.filter (fun l =>
    lessonsToAttach.contains l.id && l.courseId == courseId)
  if found.length != lessonsToAttach.length then
    .error (400, "Some lessons do not belong to this course or do not exist.")
  else if found.any (fun l => l.curriculumId.isSome && l.curriculumId != some curriculumId) then
    .error (400, "Some lessons are already attached to another curriculum. Please detach them first.")
  else
    let attached := db.lessons.map (fun l =>
      if lessonsToAttach.contains l.id && l.courseId == courseId then
        { l with curriculumId := some curriculumId }
      else l)
    let detached := attached.map (fun l =>
      if lessonsToDetach.contains l.id && l.curriculumId == some curriculumId
          && l.courseId == courseId then
        { l with curriculumId := none }
      else l)
    .ok detached

/-- updateCurriculum (PUT /api/instructor/courses/:courseId/curriculum/:curriculumId):
role gate, ownership check for instructors (thrown object caught generically,
500), findFirst (404), position reindexing when the body carries a changed
position, the lessonIds attach/detach block, then prisma.curriculum.update of
the target with lessonIds stripped from the payload. -/
def updateCurriculum (db : LmsDB) (courseId curriculumId : String)
    (user : Option AuthUser) (u : UpdateCurriculumData) :
    HttpResult Curriculum × LmsDB :=
  match user with
  | none => (.err 403 "Access denied. Only instructors can update curriculum sections.", db)
  | some au =>
    if au.role != Role.INSTRUCTOR && au.role != Role.ADMIN then
      (.err 403 "Access denied. Only instructors can update curriculum sections.", db)
    else
      match (if au.role == Role.INSTRUCTOR then
               (checkCourseOwnership db courseId au).map (fun _ => ())
             else .ok ()) with
      | .error _ => (.err 500 "Internal Server Error", db)
      | .ok _ =>
        match db.curricula.find? (fun c => c.id == curriculumId && c.courseId == courseId) with
        | none => (.err 404 "Curriculum section not found in this course", db)
        | some curriculum =>
          let curricula1 :=
            match u.position with
            | some newPosition =>
              shiftCurriculaForMove db.curricula courseId curriculumId
                curriculum.position newPosition
            | none => db.curricula
          let db1 := { db with curricula := curricula1 }
          let lessonsStep : Except (Nat × String) (List Lesson) :=
            match u.lessonIds with
            | none => .ok db1.lessons
            | some newLessonIds =>
              let currentLessonIds :=
                (db1.lessons.filter (fun l => l.curriculumId == some curriculumId)).map
                  (fun l => l.id)
              manageCurriculumLessons db1 courseId curriculumId
                currentLessonIds newLessonIds
          match lessonsStep with
          | .error e => (.err e.1 e.2, { db with curricula := curricula1 })
          | .ok lessons1 =>
            let curricula2 := curricula1.map (fun c =>
              if c.id == curriculumId then applyUpdateCurriculum c u else c)
            match curricula2.find? (fun c => c.id == curriculumId) with
            | some updated =>
              (.ok 200 updated, { db with curricula := curricula2, lessons := lessons1 })
            | none => (.err 500 "Internal Server Error", db)

/-- deleteCurriculum (DELETE /api/instructor/courses/:courseId/curriculum/:curriculumId):
role gate, ownership check for instructors (500 via handlePrismaError on the
thrown object), findFirst (404), refusal while lessons are attached (400),
prisma.curriculum.delete, then updateMany decrementing the position of every
section of the course with position > deleted.position. -/
def deleteCurriculum (db : LmsDB) (courseId curriculumId : String)
    (user : Option AuthUser) : HttpResult Curriculum × LmsDB :=
  match user with
  | none => (.err 403 "Access denied. Only instructors or admins can delete curriculum sections.", db)
  | some au =>
    if au.role != Role.INSTRUCTOR && au.role != Role.ADMIN then
      (.err 403 "Access denied. Only instructors or admins can delete curriculum sections.", db)
    else
      match (if au.role == Role.INSTRUCTOR then
               (checkCourseOwnership db courseId au).map (fun _ => ())
             else .ok ()) with
      | .error _ => (.err 500 "Unexpected server error while DeleteCurriculum", db)
      | .ok _ =>
        match db.curricula.find? (fun c => c.id == curriculumId && c.courseId == courseId) with
        | none => (.err 404 "Curriculum section not found in this course", db)
        | some curriculum =>
          if (db.lessons.filter (fun l => l.curriculumId == some curriculumId)).length > 0 then
            (.err 400 "Cannot delete curriculum with existing lessons. Please move or delete lessons first.", db)
          else
            let remaining := db.curricula.filter (fun c => c.id != curriculumId)
            let shifted := remaining.map (fun c =>
              if c.courseId == courseId && c.position > curriculum.position then
                { c with position := c.position - 1 }
              else c)
            (.ok 200 curriculum, { db with curricula := shifted })

/-! ## Concrete fixtures used by counterexamples and witnesses -/

/-- A student account. -/
def demoStudent : User :=
  { id := "u1", email := "student@example.com", name := "Student One",
    role := Role.STUDENT, passwordHash := hashPassword "pw1" }

/-- A second account, present only to vary the database contents. -/
def demoOther : User :=
  { id := "u2", email := "other@example.com", name := "Other",
    role := Role.STUDENT, passwordHash := hashPassword "pw2" }

/-- The refresh token demoStudent obtains at instant 0. -/
def demoRefreshTok : Jwt := generateRefreshToken 0 "u1"

/-- An auth database holding demoStudent and the stored (hashed) record of
demoRefreshTok. -/
def demoAuthDB : AuthDB :=
  { users := [demoStudent],
    refreshTokens := [{ tokenHash := sha256Hex demoRefreshTok, userId := "u1",
                        expiresAt := 604800000 }],
    resetTokens := [] }

/-- A course owned by instructor inst1. -/
def demoCourse : Course :=
  { id := "c1", title := "Demo Course", instructorId := "inst1", rating := 0 }

/-- An instructor account that does NOT own demoCourse. -/
def demoIntruder : AuthUser := { id := "inst2", role := Role.INSTRUCTOR }

/-- A course-domain database with demoCourse, one quiz on it, and a PAID
enrollment of student s1. -/
def demoLms : LmsDB :=
  { courses := [demoCourse],
    curricula := [],
    lessons := [],
    quizzes := [{ id := "q1", title := "Quiz One", courseId := "c1" }],
    questions := [],
    reviews := [],
    enrollments := [{ id := "e1", studentId := "s1", courseId := "c1",
                      status := EnrollmentStatus.PAID }] }

/-! ## C10: logout hashes with the nonexistent algorithm "sha26" -/

/-- C10: for every logout request carrying a refresh token, hashing with the
nonexistent digest-algorithm name "sha26" fails before the database delete,
so the handler answers 500 "Something went wrong" and the RefreshToken table
is untouched: the presented refresh token stays valid. -/
theorem logout_sha26_always_fails (db : AuthDB) (rt : Jwt) :
    logout db (some rt) = (.err 500 "Something went wrong", db) := by
  unfold logout createHashHex supportedHashAlgorithms
  simp

/-! ## C5: refresh-token expiry is SHORTER than access-token expiry -/

/-- C5 (code bug): the access token is signed with expiresIn 60 minutes while
the refresh token is signed with expiresIn 50 minutes and stored with
expiresAt = now + 50 minutes, so every issued refresh token expires strictly
BEFORE the access token it accompanies — the opposite of the claim.  The
repository's own status document (part_007) flags exactly these constants as
a critical bug whose fix is the 15m/7d pair also present as
accessTokenLifetimeMsFixed/refreshTokenLifetimeMsFixed. -/
theorem refresh_expiry_below_access_expiry (db : AuthDB) (now : Int)
    (userId : String) (role : Role) :
    (generateRefreshToken now userId).exp < (generateAccessToken now userId role).exp ∧
    (generateTokens db now userId role).2.refreshTokens =
      db.refreshTokens ++
        [{ tokenHash := sha256Hex (generateRefreshToken now userId),
           userId := userId, expiresAt := now + refreshTokenDbLifetimeMs }] ∧
    refreshTokenDbLifetimeMs < accessTokenLifetimeMs ∧
    refreshTokenLifetimeMsFixed > accessTokenLifetimeMsFixed := by
  refine ⟨?_, rfl, by norm_num [refreshTokenDbLifetimeMs, accessTokenLifetimeMs],
          by norm_num [refreshTokenLifetimeMsFixed, accessTokenLifetimeMsFixed]⟩
  simp only [generateRefreshToken, generateAccessToken,
    accessTokenLifetimeMs, refreshTokenLifetimeMs]
  omega

/-! ## C6: refresh tokens are hashed WITHOUT salt -/

/-- C6 counterexample: two independent logins with the same credentials at
the same instant, against two different databases, store records with the
same tokenHash — the stored digest is a fixed deterministic function of the
token, contradicting the claim that two storings of one token need not agree. -/
theorem refresh_hash_salt_counterexample :
    ((login { users := [demoStudent], refreshTokens := [], resetTokens := [] }
        0 "student@example.com" "pw1").2.refreshTokens.map (fun s => s.tokenHash)) =
    ((login { users := [demoOther, demoStudent],
              refreshTokens := [{ tokenHash := "other", userId := "u2", expiresAt := 1 }],
              resetTokens := [] }
        0 "student@example.com" "pw1").2.refreshTokens.map (fun s => s.tokenHash)).drop 1 := by
  decide

/-- C6 amended: every code path that stores a refresh token stores exactly
the unsalted SHA-256 digest of the token: the stored hash is a deterministic
function of the token alone, so independent storings of the same token always
produce the same stored hash (no salt is involved). -/
theorem refresh_hash_unsalted_deterministic (db db' : AuthDB) (now : Int)
    (userId : String) (role role' : Role) :
    (generateTokens db now userId role).2.refreshTokens =
      db.refreshTokens ++
        [{ tokenHash := sha256Hex (generateRefreshToken now userId),
           userId := userId, expiresAt := now + refreshTokenDbLifetimeMs }] ∧
    ((generateTokens db now userId role).2.refreshTokens.getLast?.map
        (fun s => s.tokenHash)) =
      ((generateTokens db' now userId role').2.refreshTokens.getLast?.map
        (fun s => s.tokenHash)) := by
  refine ⟨rfl, ?_⟩
  unfold generateTokens
  simp [List.getLast?_concat]

/-! ## C1: quiz creation and question addition skip the ownership gate -/

/-- C1 (code bug): an INSTRUCTOR who does not own the course (the ownership
check itself would reject them with 403) can nevertheless create a quiz on it
and add a question to its quiz: both handlers answer 201 and insert the row,
because neither the route nor the handler ever invokes checkCourseOwnership —
despite their swagger documentation advertising a 403 Access-denied response. -/
theorem createQuiz_skips_ownership_gate :
    checkCourseOwnership demoLms "c1" demoIntruder =
      .error (403, "You do not own this course.") ∧
    createQuiz demoLms "q2" "c1" (some demoIntruder) "Intruder Quiz" =
      (.ok 201 { id := "q2", title := "Intruder Quiz", courseId := "c1" },
       { demoLms with quizzes :=
          demoLms.quizzes ++ [{ id := "q2", title := "Intruder Quiz", courseId := "c1" }] }) ∧
    addQuestionToQuiz demoLms "qq1" "q1" (some demoIntruder) "Two plus two?"
        QuestionType.SHORT_ANSWER [] "4" =
      (.ok 201 { id := "qq1", text := "Two plus two?", type := QuestionType.SHORT_ANSWER,
                 options := [], correctAnswer := "4", quizId := "q1" },
       { demoLms with questions :=
          demoLms.questions ++
            [{ id := "qq1", text := "Two plus two?", type := QuestionType.SHORT_ANSWER,
               options := [], correctAnswer := "4", quizId := "q1" }] }) :=
  ⟨rfl, by decide, by decide⟩

/-! ## C2: the refresh endpoint does not rotate the refresh token -/

/-- C2 counterexample: a fully valid refresh request (stored hash present,
signature verifies, user exists) answers 200 with a new access token, yet the
database is returned UNCHANGED — the stored RefreshToken record is still
there — and the response carries no new refresh token, so the very same
request succeeds again. -/
theorem refresh_rotation_counterexample :
    refreshTokenHandler demoAuthDB 1000 (some demoRefreshTok) =
      (.ok 200 { accessToken := generateAccessToken 1000 "u1" Role.STUDENT,
                 refreshTokenValue := none, userId := "u1" }, demoAuthDB) ∧
    (refreshTokenHandler demoAuthDB 1000 (some demoRefreshTok)).2.refreshTokens =
      demoAuthDB.refreshTokens := by
  exact ⟨by decide, by decide⟩

/-- C2 amended: the refresh endpoint performs no rotation.  It never writes:
whatever the request, the returned state equals the input state; and when the
presented token's hash matches a stored record, the token verifies against
the refresh secret and the user exists, the response is 200 carrying a fresh
access token only — no new refresh token — so the same refresh token can be
exchanged again until it expires or is deleted elsewhere. -/
theorem refresh_issues_access_token_only (db : AuthDB) (now : Int)
    (body : Option Jwt) (rt : Jwt) (user : User)
    (hbody : body = some rt)
    (hstored : (db.refreshTokens.find? (fun s => s.tokenHash == sha256Hex rt)).isSome = true)
    (hverify : jwtVerify rt JWT_REFRESH_SECRET now = some rt.userId)
    (huser : db.users.find? (fun u => u.id == rt.userId) = some user) :
    (∀ b : Option Jwt, (refreshTokenHandler db now b).2 = db) ∧
    refreshTokenHandler db now body =
      (.ok 200 { accessToken := generateAccessToken now user.id user.role,
                 refreshTokenValue := none, userId := user.id }, db) := by
  constructor
  · intro b
    unfold refreshTokenHandler
    rcases b with _ | tok
    · rfl
    · dsimp only
      repeat' split
      all_goals rfl
  · subst hbody
    rw [Option.isSome_iff_exists] at hstored
    obtain ⟨s, hs⟩ := hstored
    unfold refreshTokenHandler
    simp only [hs, hverify, huser]

/-- Witness for refresh_issues_access_token_only at the demo database. -/
theorem refresh_issues_access_token_only_witness :
    (∀ b : Option Jwt, (refreshTokenHandler demoAuthDB 1000 b).2 = demoAuthDB) ∧
    refreshTokenHandler demoAuthDB 1000 (some demoRefreshTok) =
      (.ok 200 { accessToken := generateAccessToken 1000 "u1" Role.STUDENT,
                 refreshTokenValue := none, userId := "u1" }, demoAuthDB) :=
  refresh_issues_access_token_only demoAuthDB 1000 (some demoRefreshTok)
    demoRefreshTok demoStudent rfl (by decide) (by decide) (by decide)

/-! ## C9: password reset tokens — boundary of the expiry check -/

/-- An auth database with one reset token for demoStudent expiring at
instant 100. -/
def demoResetDB : AuthDB :=
  { users := [demoStudent],
    refreshTokens := [],
    resetTokens := [{ id := "pr1", token := "t1", userId := "u1", expiresAt := 100 }] }

/-- C9 counterexample: presented exactly AT its expiry instant
(now = expiresAt = 100), the token is accepted: the handler updates the
password hash and answers 200, although the claim requires expiresAt to be
strictly later than the current time and a 400 answer otherwise.  The code
rejects only when expiresAt < now. -/
theorem resetPassword_boundary_counterexample :
    resetPassword demoResetDB 100 "t1" "newpw" =
      (.ok 200 "Password reset successful",
       { users := [{ demoStudent with passwordHash := hashPassword "newpw" }],
         refreshTokens := [], resetTokens := [] }) := by
  decide

/-- C9 amended: resetPassword updates the user's password hash exactly when
the presented token exists and its expiresAt is at or later than the current
time (the code rejects only expiresAt < now); otherwise it answers 400
"Invalid or expired token" with no state change.  On success it deletes the
token record, so — the token column holding distinct values — a second
resetPassword call with the same token answers 400 and changes nothing. -/
theorem resetPassword_spec (db : AuthDB) (now : Int) (token newPassword : String)
    (hnodup : (db.resetTokens.map (fun r => r.token)).Nodup) :
    (db.resetTokens.find? (fun r => r.token == token) = none →
      resetPassword db now token newPassword = (.err 400 "Invalid or expired token", db)) ∧
    (∀ r, db.resetTokens.find? (fun r0 => r0.token == token) = some r →
      (r.expiresAt < now →
        resetPassword db now token newPassword = (.err 400 "Invalid or expired token", db)) ∧
      (¬ r.expiresAt < now →
        resetPassword db now token newPassword =
          (.ok 200 "Password reset successful",
           { db with
              users := db.users.map (fun u =>
                if u.id == r.userId then { u with passwordHash := hashPassword newPassword } else u),
              resetTokens := db.resetTokens.filter (fun r0 => r0.id != r.id) }) ∧
        resetPassword (resetPassword db now token newPassword).2 now token newPassword =
          (.err 400 "Invalid or expired token",
           (resetPassword db now token newPassword).2))) := by
  constructor
  · intro hnone
    unfold resetPassword
    rw [hnone]
  · intro r hr
    have hmem : r ∈ db.resetTokens := List.mem_of_find?_eq_some hr
    have hrtok : r.token = token := by
      have := List.find?_some hr
      simpa using this
    constructor
    · intro hexp
      unfold resetPassword
      simp only [hr]
      rw [if_pos hexp]
    · intro hexp
      have hres : resetPassword db now token newPassword =
          (.ok 200 "Password reset successful",
           { db with
              users := db.users.map (fun u =>
                if u.id == r.userId then { u with passwordHash := hashPassword newPassword } else u),
              resetTokens := db.resetTokens.filter (fun r0 => r0.id != r.id) }) := by
        unfold resetPassword
        simp only [hr]
        rw [if_neg hexp]
      refine ⟨hres, ?_⟩
      rw [hres]
      have hgone : ((db.resetTokens.filter (fun r0 => r0.id != r.id)).find?
          (fun r0 => r0.token == token)) = none := by
        rw [List.find?_eq_none]
        intro x hx
        rw [List.mem_filter] at hx
        obtain ⟨hxmem, hxid⟩ := hx
        intro hxtok
        have hxtok' : x.token = token := by simpa using hxtok
        have : x = r := List.inj_on_of_nodup_map hnodup hxmem hmem (hxtok'.trans hrtok.symm)
        subst this
        simp at hxid
      unfold resetPassword
      rw [hgone]

/-- Witness for resetPassword_spec: the demo token is accepted at instant 99,
the password is overwritten and the record deleted, and a second call with
the same token is rejected with no state change. -/
theorem resetPassword_spec_witness :
    resetPassword demoResetDB 99 "t1" "newpw" =
      (.ok 200 "Password reset successful",
       { demoResetDB with
          users := demoResetDB.users.map (fun u =>
            if u.id == "u1" then { u with passwordHash := hashPassword "newpw" } else u),
          resetTokens := demoResetDB.resetTokens.filter (fun r0 => r0.id != "pr1") }) ∧
    resetPassword (resetPassword demoResetDB 99 "t1" "newpw").2 99 "t1" "newpw" =
      (.err 400 "Invalid or expired token",
       (resetPassword demoResetDB 99 "t1" "newpw").2) :=
  ((resetPassword_spec demoResetDB 99 "t1" "newpw" (by decide)).2
    { id := "pr1", token := "t1", userId := "u1", expiresAt := 100 }
    (by decide)).2 (by decide)

/-! ## C3: which review paths recompute the course's average rating -/

/-- The student requester s1 used by the review fixtures. -/
def demoReviewer : AuthUser := { id := "s1", role := Role.STUDENT }

/-- A five-star review submission body. -/
def demoReviewInput : ReviewInput := { rating := 5, title := none, comment := none }

/-- C3 counterexample: the student reviewCourse path accepts the review
(201) but leaves the course table — and hence the denormalized rating —
untouched: the stored rating stays 0 while the arithmetic mean of the
course's reviews is now 5. -/
theorem reviewCourse_average_counterexample :
    (reviewCourse demoLms "r1" "c1" (some demoReviewer) demoReviewInput).1.statusOf = 201 ∧
    (reviewCourse demoLms "r1" "c1" (some demoReviewer) demoReviewInput).2.courses =
      demoLms.courses ∧
    demoCourse.rating = 0 ∧
    averageRating (courseReviews
      (reviewCourse demoLms "r1" "c1" (some demoReviewer) demoReviewInput).2 "c1") = 5 := by
  refine ⟨by decide, by decide, by decide, ?_⟩
  have hrev : courseReviews
      (reviewCourse demoLms "r1" "c1" (some demoReviewer) demoReviewInput).2 "c1" =
      [{ id := "r1", courseId := "c1", authorId := "s1", rating := 5,
         title := none, comment := "" }] := by decide
  rw [hrev]
  norm_num [averageRating, ratingSum]

/-- C3 amended: the denormalized rating is recomputed and stored by
submitCourseReview and by instructorReviewCourse — after either succeeds,
every course row with the reviewed id carries the arithmetic mean of all
Review rows attached to that course — but the student reviewCourse path
creates its review without ever touching the course row. -/
theorem review_average_recompute_spec (db : LmsDB) (newId courseId : String)
    (user : Option AuthUser) (rating : Int) (title : Option String) (body : String)
    (input : ReviewInput) :
    ((reviewCourse db newId courseId user input).2.courses = db.courses) ∧
    ((submitCourseReview db newId courseId user rating title body).1.isOk = true →
      ∀ c ∈ (submitCourseReview db newId courseId user rating title body).2.courses,
        c.id = courseId →
          c.rating = averageRating (courseReviews
            (submitCourseReview db newId courseId user rating title body).2 courseId)) ∧
    ((instructorReviewCourse db newId courseId user input).1.isOk = true →
      ∀ c ∈ (instructorReviewCourse db newId courseId user input).2.courses,
        c.id = courseId →
          c.rating = averageRating (courseReviews
            (instructorReviewCourse db newId courseId user input).2 courseId)) := by
  refine ⟨?_, ?_, ?_⟩
  · unfold reviewCourse
    rcases user with _ | u
    · rfl
    · dsimp only
      repeat' split
      all_goals rfl
  · unfold submitCourseReview
    rcases user with _ | u
    · intro hok; simp [HttpResult.isOk] at hok
    · dsimp only
      split
      · intro hok; simp [HttpResult.isOk] at hok
      · split
        · intro hok; simp [HttpResult.isOk] at hok
        · split
          · intro hok; simp [HttpResult.isOk] at hok
          · split
            · intro hok; simp [HttpResult.isOk] at hok
            · split
              · intro hok; simp [HttpResult.isOk] at hok
              · split
                · intro hok; simp [HttpResult.isOk] at hok
                · intro _ c hc hcid
                  unfold setCourseRating at hc
                  simp only [List.mem_map] at hc
                  obtain ⟨c0, hc0, rfl⟩ := hc
                  by_cases h : c0.id == courseId
                  · rw [if_pos h]
                    rfl
                  · rw [if_neg h] at hcid ⊢
                    exact absurd hcid (by simpa using h)
  · unfold instructorReviewCourse
    rcases user with _ | u
    · intro hok; simp [HttpResult.isOk] at hok
    · dsimp only
      split
      · intro hok; simp [HttpResult.isOk] at hok
      · split
        · intro hok; simp [HttpResult.isOk] at hok
        · split
          · intro hok; simp [HttpResult.isOk] at hok
          · split
            · intro hok; simp [HttpResult.isOk] at hok
            · intro _ c hc hcid
              unfold setCourseRating at hc
              simp only [List.mem_map] at hc
              obtain ⟨c0, hc0, rfl⟩ := hc
              by_cases h : c0.id == courseId
              · rw [if_pos h]
                rfl
              · rw [if_neg h] at hcid ⊢
                exact absurd hcid (by simpa using h)

/-- Witness for review_average_recompute_spec: after a successful
submitCourseReview on the demo database, the course row stores the mean of
its reviews. -/
theorem review_average_recompute_spec_witness :
    ∀ c ∈ (submitCourseReview demoLms "r1" "c1" (some demoReviewer) 5 none "Great").2.courses,
      c.id = "c1" →
        c.rating = averageRating (courseReviews
          (submitCourseReview demoLms "r1" "c1" (some demoReviewer) 5 none "Great").2 "c1") :=
  (review_average_recompute_spec demoLms "r1" "c1" (some demoReviewer) 5 none "Great"
    demoReviewInput).2.1 (by decide)

/-! ## C4: no unique constraint backs the one-review-per-pair rule -/

/-- The demo database with an existing review by s1 on c1. -/
def demoLmsReviewed : LmsDB :=
  { demoLms with reviews := [{ id := "r0", courseId := "c1", authorId := "s1",
                               rating := 3, title := none, comment := "ok" }] }

/-- C4 (code bug): no migration creates a unique index on the Review table,
so nothing at the database layer enforces one review per (author, course):
a second reviewCourse insert by the same student on the same course succeeds
(201) and leaves two Review rows for the pair — although the handler's own
catch comment expects a unique-constraint violation for exactly this case. -/
theorem review_pair_has_no_unique_constraint :
    (∀ cols : List String, ("Review", cols) ∉ migrationUniqueIndexes) ∧
    (reviewCourse demoLmsReviewed "r2" "c1" (some demoReviewer)
        { rating := 5, title := none, comment := none }).1.statusOf = 201 ∧
    ((reviewCourse demoLmsReviewed "r2" "c1" (some demoReviewer)
        { rating := 5, title := none, comment := none }).2.reviews.filter
      (fun r => r.courseId == "c1" && r.authorId == "s1")).length = 2 := by
  refine ⟨?_, by decide, by decide⟩
  intro cols
  simp [migrationUniqueIndexes]

/-- Witness for review_pair_has_no_unique_constraint at the pair of columns
the claim is about. -/
theorem review_pair_has_no_unique_constraint_witness :
    ("Review", ["courseId", "authorId"]) ∉ migrationUniqueIndexes :=
  review_pair_has_no_unique_constraint.1 ["courseId", "authorId"]

/-! ## Position reindexing: arithmetic core

The reindex map that both updateLesson and updateCurriculum implement, read
off the claim's description: the moved entity leaves position p for q, the
window of positions between them slides by one toward the vacated slot, and
every other position is fixed. -/

/-- The position-level reindex map for moving the entity at p to q. -/
def movePos (p q x : Int) : Int :=
  if x = p then q
  else if q ≤ x ∧ x < p then x + 1
  else if p < x ∧ x ≤ q then x - 1
  else x

/-- The positions 0..n-1 as integers. -/
def intRange (n : Nat) : List Int := (List.range n).map Int.ofNat

theorem mem_intRange {n : Nat} {a : Int} : a ∈ intRange n ↔ 0 ≤ a ∧ a < n := by
  unfold intRange
  simp only [List.mem_map, List.mem_range, Int.ofNat_eq_coe]
  constructor
  · rintro ⟨k, hk, rfl⟩
    omega
  · intro h
    exact ⟨a.toNat, by omega, by omega⟩

theorem intRange_nodup (n : Nat) : (intRange n).Nodup :=
  (List.nodup_range n).map (fun a b h => Int.ofNat.inj h)

theorem movePos_injective (p q : Int) : Function.Injective (movePos p q) := by
  intro a b h
  unfold movePos at h
  split_ifs at h <;> omega

theorem movePos_bounds {n : Nat} {p q x : Int}
    (hp : 0 ≤ p ∧ p < n) (hq : 0 ≤ q ∧ q < n) (hx : 0 ≤ x ∧ x < n) :
    0 ≤ movePos p q x ∧ movePos p q x < n := by
  unfold movePos
  split_ifs <;> omega

theorem movePos_surj {n : Nat} {p q a : Int}
    (hp : 0 ≤ p ∧ p < n) (hq : 0 ≤ q ∧ q < n) (ha : 0 ≤ a ∧ a < n) :
    ∃ x : Int, (0 ≤ x ∧ x < n) ∧ movePos p q x = a := by
  by_cases h1 : a = q
  · exact ⟨p, by omega, by unfold movePos; split_ifs <;> omega⟩
  by_cases h2 : q < a ∧ a ≤ p
  · exact ⟨a - 1, by omega, by unfold movePos; split_ifs <;> omega⟩
  by_cases h3 : p ≤ a ∧ a < q
  · exact ⟨a + 1, by omega, by unfold movePos; split_ifs <;> omega⟩
  · exact ⟨a, by omega, by unfold movePos; split_ifs <;> omega⟩

/-- Mapping the reindex map over any permutation of 0..n-1 yields a
permutation of 0..n-1 again, provided both endpoints lie in range. -/
theorem map_movePos_perm {n : Nat} {p q : Int} (l : List Int)
    (hp : 0 ≤ p ∧ p < n) (hq : 0 ≤ q ∧ q < n) (hl : l.Perm (intRange n)) :
    (l.map (movePos p q)).Perm (intRange n) := by
  refine  .trans (hl.map (movePos p q)) ?_
  have hnd : (intRange n).Nodup := intRange_nodup n
  have hnd2 : ((intRange n).map (movePos p q)).Nodup :=
    hnd.map (movePos_injective p q)
  rw [List.perm_ext_iff_of_nodup hnd2 hnd]
  intro a
  simp only [List.mem_map]
  constructor
  · rintro ⟨x, hx, rfl⟩
    rw [mem_intRange] at hx ⊢
    exact movePos_bounds hp hq hx
  · intro ha
    rw [mem_intRange] at ha
    obtain ⟨x, hx, hxa⟩ := movePos_surj hp hq ha
    exact ⟨x, mem_intRange.mpr hx, hxa⟩

/-- The position-level map for deleting the entity at position p: everything
above p slides down by one. -/
def delPos (p x : Int) : Int :=
  if p < x then x - 1 else x

/-- Removing one occurrence of p from a permutation of 0..n and sliding the
positions above p down yields a permutation of 0..n-1. -/
theorem map_delPos_perm {n : Nat} {p : Int} (l : List Int)
    (hp : 0 ≤ p ∧ p ≤ n) (hl : l.Perm ((intRange (n + 1)).erase p)) :
    (l.map (delPos p)).Perm (intRange n) := by
  refine .trans (hl.map (delPos p)) ?_
  have hnd : (intRange (n + 1)).Nodup := intRange_nodup (n + 1)
  have hnde : ((intRange (n + 1)).erase p).Nodup := hnd.erase p
  have hmem : ∀ a, a ∈ (intRange (n + 1)).erase p ↔ a ≠ p ∧ (0 ≤ a ∧ a < n + 1) := by
    intro a
    rw [hnd.mem_erase_iff, mem_intRange]
    constructor <;> (rintro ⟨h1, h2⟩; exact ⟨h1, by omega⟩)
  have hnd2 : (((intRange (n + 1)).erase p).map (delPos p)).Nodup := by
    refine List.Nodup.map_on ?_ hnde
    intro x hx y hy hxy
    rw [hmem] at hx hy
    unfold delPos at hxy
    split_ifs at hxy <;> omega
  rw [List.perm_ext_iff_of_nodup hnd2 (intRange_nodup n)]
  intro a
  simp only [List.mem_map]
  constructor
  · rintro ⟨x, hx, rfl⟩
    rw [hmem] at hx
    rw [mem_intRange]
    unfold delPos
    split_ifs <;> omega
  · intro ha
    rw [mem_intRange] at ha
    by_cases hcase : a < p
    · refine ⟨a, (hmem a).mpr ⟨by omega, by omega⟩, ?_⟩
      unfold delPos
      split_ifs <;> omega
    · refine ⟨a + 1, (hmem (a + 1)).mpr ⟨by omega, by omega⟩, ?_⟩
      unfold delPos
      split_ifs <;> omega

/-! ## C7 plumbing: the code's shift-then-update equals the claim's
single-step description -/

/-- The lesson move as the specification describes it: the moved entity is
updated (receiving position q), the other lessons of the course in the window
between q and the vacated position p slide by one toward p, everything else
is untouched.  Written from the claim's words, to be compared with the
updateLesson pipeline. -/
def specLessonMove (courseId lessonId : String) (p q : Int) (u : UpdateLessonData)
    (l : Lesson) : Lesson :=
  if l.id == lessonId then applyUpdateLesson l u
  else if l.courseId == courseId && q ≤ l.position && l.position < p then
    { l with position := l.position + 1 }
  else if l.courseId == courseId && p < l.position && l.position ≤ q then
    { l with position := l.position - 1 }
  else l

theorem specLessonMove_id (courseId lessonId : String) (p q : Int)
    (u : UpdateLessonData) (l : Lesson) :
    (specLessonMove courseId lessonId p q u l).id = l.id := by
  unfold specLessonMove applyUpdateLesson
  split_ifs <;> rfl

theorem specLessonMove_courseId (courseId lessonId : String) (p q : Int)
    (u : UpdateLessonData) (l : Lesson) :
    (specLessonMove courseId lessonId p q u l).courseId = l.courseId := by
  unfold specLessonMove applyUpdateLesson
  split_ifs <;> rfl

/-- The two-phase pipeline of updateLesson (updateMany window shift, then
update of the target) equals the claim's single-step description. -/
theorem shift_update_eq_specLessonMove (X : List Lesson) (courseId lessonId : String)
    (p q : Int) (u : UpdateLessonData) :
    (shiftLessonsForMove X courseId lessonId p q).map
      (fun l => if l.id == lessonId then applyUpdateLesson l u else l) =
    X.map (specLessonMove courseId lessonId p q u) := by
  unfold shiftLessonsForMove
  split_ifs with h1 h2
  · rw [List.map_map]
    refine List.map_congr_left (fun l _ => ?_)
    simp only [Function.comp, specLessonMove, Bool.and_eq_true, beq_iff_eq,
      bne_iff_ne, decide_eq_true_eq]
    split_ifs <;> first | rfl | omega | simp_all
  · rw [List.map_map]
    refine List.map_congr_left (fun l _ => ?_)
    simp only [Function.comp, specLessonMove, Bool.and_eq_true, beq_iff_eq,
      bne_iff_ne, decide_eq_true_eq]
    split_ifs <;> first | rfl | omega | simp_all
  · refine List.map_congr_left (fun l _ => ?_)
    simp only [specLessonMove, Bool.and_eq_true, beq_iff_eq, decide_eq_true_eq]
    split_ifs <;> first | rfl | omega

/-- Helper: the lesson-half of claim C7.  Under the handler's guards, with
the course's lesson positions forming a permutation of 0..n-1 and a new
position q in [0, n-1], updateLesson answers 200, rewrites the lesson table
exactly as the claim describes (target updated to q, window shifted by one,
everything else — other fields and other courses — untouched), and the
course's positions are again a permutation of 0..n-1. -/
theorem updateLesson_position_reindex
    (db : LmsDB) (courseId lessonId : String) (au : AuthUser) (u : UpdateLessonData)
    (l₀ : Lesson) (n : Nat) (q : Int)
    (hrole : (au.role != Role.INSTRUCTOR && au.role != Role.ADMIN) = false)
    (hown : (if au.role == Role.INSTRUCTOR then
              (checkCourseOwnership db courseId au).map (fun _ => ()) else .ok ()) = .ok ())
    (hfind : db.lessons.find? (fun l => l.id == lessonId && l.courseId == courseId) = some l₀)
    (hids : (db.lessons.map (fun l => l.id)).Nodup)
    (hperm : ((db.lessons.filter (fun l => l.courseId == courseId)).map
        (fun l => l.position)).Perm (intRange n))
    (hupos : u.position = some q)
    (hq : 0 ≤ q ∧ q < n) :
    (updateLesson db courseId lessonId (some au) u).1.statusOf = 200 ∧
    (updateLesson db courseId lessonId (some au) u).2.lessons =
      db.lessons.map (specLessonMove courseId lessonId l₀.position q u) ∧
    (∀ l ∈ (updateLesson db courseId lessonId (some au) u).2.lessons,
        l.id = lessonId → l.position = q) ∧
    (((updateLesson db courseId lessonId (some au) u).2.lessons.filter
        (fun l => l.courseId == courseId)).map (fun l => l.position)).Perm (intRange n) := by
  have hl₀mem : l₀ ∈ db.lessons := List.mem_of_find?_eq_some hfind
  have hl₀pred := List.find?_some hfind
  rw [Bool.and_eq_true, beq_iff_eq, beq_iff_eq] at hl₀pred
  obtain ⟨hl₀id, hl₀course⟩ := hl₀pred
  have hfound : ∃ upd, (db.lessons.map (specLessonMove courseId lessonId l₀.position q u)).find?
      (fun l => l.id == lessonId) = some upd := by
    cases hcase : (db.lessons.map (specLessonMove courseId lessonId l₀.position q u)).find?
        (fun l => l.id == lessonId) with
    | some x => exact ⟨x, rfl⟩
    | none =>
      rw [List.find?_eq_none] at hcase
      refine absurd ?_ (hcase _ (List.mem_map_of_mem _ hl₀mem))
      rw [specLessonMove_id, hl₀id]
      exact beq_self_eq_true lessonId
  obtain ⟨upd, hupd⟩ := hfound
  have hrun : updateLesson db courseId lessonId (some au) u =
      (.ok 200 upd,
       { db with lessons := db.lessons.map (specLessonMove courseId lessonId l₀.position q u) }) := by
    unfold updateLesson
    simp only [hrole, hown, hfind, hupos, Bool.false_eq_true, if_false,
      shift_update_eq_specLessonMove, hupd]
  refine ⟨by rw [hrun]; rfl, by rw [hrun], ?_, ?_⟩
  · rw [hrun]
    intro l hmem hid
    dsimp only at hmem
    rw [List.mem_map] at hmem
    obtain ⟨x, hx, rfl⟩ := hmem
    unfold specLessonMove at hid ⊢
    by_cases hxid : (x.id == lessonId) = true
    · rw [if_pos hxid]
      unfold applyUpdateLesson
      rw [hupos]
      rfl
    · exfalso
      apply hxid
      rw [beq_iff_eq]
      rw [if_neg hxid] at hid
      split_ifs at hid <;> exact hid
  · rw [hrun]
    dsimp only
    rw [List.filter_map]
    have hfpred : db.lessons.filter
        ((fun l => l.courseId == courseId) ∘ specLessonMove courseId lessonId l₀.position q u) =
        db.lessons.filter (fun l => l.courseId == courseId) :=
      List.filter_congr (fun a _ => by
        simp only [Function.comp]
        rw [specLessonMove_courseId])
    rw [hfpred, List.map_map]
    have hl₀cl : l₀ ∈ db.lessons.filter (fun l => l.courseId == courseId) := by
      rw [List.mem_filter]
      exact ⟨hl₀mem, by rw [beq_iff_eq]; exact hl₀course⟩
    have hclnodup : ((db.lessons.filter (fun l => l.courseId == courseId)).map
        (fun l => l.position)).Nodup :=
      (hperm.nodup_iff).mpr (intRange_nodup n)
    have hpointwise : ∀ l ∈ db.lessons.filter (fun l => l.courseId == courseId),
        ((fun l => l.position) ∘ specLessonMove courseId lessonId l₀.position q u) l =
        movePos l₀.position q l.position := by
      intro l hlcl
      have hlcourse : l.courseId = courseId := by
        rw [List.mem_filter, beq_iff_eq] at hlcl
        exact hlcl.2
      by_cases hid : l.id = lessonId
      · have hle : l = l₀ := by
          refine List.inj_on_of_nodup_map hids (List.mem_filter.mp hlcl).1 hl₀mem ?_
          rw [hid, hl₀id]
        subst hle
        simp [Function.comp, specLessonMove, applyUpdateLesson, movePos, hupos, hl₀id]
      · have hposne : l.position ≠ l₀.position := by
          intro heq
          have : l = l₀ :=
            List.inj_on_of_nodup_map hclnodup hlcl hl₀cl heq
          exact hid (by rw [this, hl₀id])
        simp only [Function.comp, specLessonMove, movePos, Bool.and_eq_true,
          beq_iff_eq, decide_eq_true_eq]
        rw [if_neg (by simpa using hid)]
        split_ifs <;> first | rfl | omega | (exfalso; simp_all)
    rw [List.map_congr_left hpointwise]
    have : (db.lessons.filter (fun l => l.courseId == courseId)).map
        (fun l => movePos l₀.position q l.position) =
        ((db.lessons.filter (fun l => l.courseId == courseId)).map
          (fun l => l.position)).map (movePos l₀.position q) := by
      rw [List.map_map]; rfl
    rw [this]
    have hp : 0 ≤ l₀.position ∧ l₀.position < n := by
      have : l₀.position ∈ (db.lessons.filter (fun l => l.courseId == courseId)).map
          (fun l => l.position) := List.mem_map_of_mem _ hl₀cl
      exact mem_intRange.mp ((hperm.mem_iff).mp this)
    exact map_movePos_perm _ hp hq hperm

/-- The curriculum-section move as the specification describes it; compare
specLessonMove. -/
def specCurriculumMove (courseId curriculumId : String) (p q : Int)
    (u : UpdateCurriculumData) (c : Curriculum) : Curriculum :=
  if c.id == curriculumId then applyUpdateCurriculum c u
  else if c.courseId == courseId && q ≤ c.position && c.position < p then
    { c with position := c.position + 1 }
  else if c.courseId == courseId && p < c.position && c.position ≤ q then
    { c with position := c.position - 1 }
  else c

theorem specCurriculumMove_id (courseId curriculumId : String) (p q : Int)
    (u : UpdateCurriculumData) (c : Curriculum) :
    (specCurriculumMove courseId curriculumId p q u c).id = c.id := by
  unfold specCurriculumMove applyUpdateCurriculum
  split_ifs <;> rfl

theorem specCurriculumMove_courseId (courseId curriculumId : String) (p q : Int)
    (u : UpdateCurriculumData) (c : Curriculum) :
    (specCurriculumMove courseId curriculumId p q u c).courseId = c.courseId := by
  unfold specCurriculumMove applyUpdateCurriculum
  split_ifs <;> rfl

/-- The two-phase pipeline of updateCurriculum equals the claim's single-step
description. -/
theorem shift_update_eq_specCurriculumMove (X : List Curriculum)
    (courseId curriculumId : String) (p q : Int) (u : UpdateCurriculumData) :
    (shiftCurriculaForMove X courseId curriculumId p q).map
      (fun c => if c.id == curriculumId then applyUpdateCurriculum c u else c) =
    X.map (specCurriculumMove courseId curriculumId p q u) := by
  unfold shiftCurriculaForMove
  split_ifs with h1 h2
  · rw [List.map_map]
    refine List.map_congr_left (fun c _ => ?_)
    simp only [Function.comp, specCurriculumMove, Bool.and_eq_true, beq_iff_eq,
      bne_iff_ne, decide_eq_true_eq]
    split_ifs <;> first | rfl | omega | simp_all
  · rw [List.map_map]
    refine List.map_congr_left (fun c _ => ?_)
    simp only [Function.comp, specCurriculumMove, Bool.and_eq_true, beq_iff_eq,
      bne_iff_ne, decide_eq_true_eq]
    split_ifs <;> first | rfl | omega | simp_all
  · refine List.map_congr_left (fun c _ => ?_)
    simp only [specCurriculumMove, Bool.and_eq_true, beq_iff_eq, decide_eq_true_eq]
    split_ifs <;> first | rfl | omega

/-- Helper: the curriculum-half of claim C7, mirroring
updateLesson_position_reindex (the request carries no lessonIds, so only the
position reindex runs). -/
theorem updateCurriculum_position_reindex
    (db : LmsDB) (courseId curriculumId : String) (au : AuthUser)
    (u : UpdateCurriculumData) (c₀ : Curriculum) (n : Nat) (q : Int)
    (hrole : (au.role != Role.INSTRUCTOR && au.role != Role.ADMIN) = false)
    (hown : (if au.role == Role.INSTRUCTOR then
              (checkCourseOwnership db courseId au).map (fun _ => ()) else .ok ()) = .ok ())
    (hfind : db.curricula.find? (fun c => c.id == curriculumId && c.courseId == courseId)
      = some c₀)
    (hids : (db.curricula.map (fun c => c.id)).Nodup)
    (hperm : ((db.curricula.filter (fun c => c.courseId == courseId)).map
        (fun c => c.position)).Perm (intRange n))
    (hupos : u.position = some q)
    (hlids : u.lessonIds = none)
    (hq : 0 ≤ q ∧ q < n) :
    (updateCurriculum db courseId curriculumId (some au) u).1.statusOf = 200 ∧
    (updateCurriculum db courseId curriculumId (some au) u).2.curricula =
      db.curricula.map (specCurriculumMove courseId curriculumId c₀.position q u) ∧
    (updateCurriculum db courseId curriculumId (some au) u).2.lessons = db.lessons ∧
    (∀ c ∈ (updateCurriculum db courseId curriculumId (some au) u).2.curricula,
        c.id = curriculumId → c.position = q) ∧
    (((updateCurriculum db courseId curriculumId (some au) u).2.curricula.filter
        (fun c => c.courseId == courseId)).map (fun c => c.position)).Perm (intRange n) := by
  have hc₀mem : c₀ ∈ db.curricula := List.mem_of_find?_eq_some hfind
  have hc₀pred := List.find?_some hfind
  rw [Bool.and_eq_true, beq_iff_eq, beq_iff_eq] at hc₀pred
  obtain ⟨hc₀id, hc₀course⟩ := hc₀pred
  have hfound : ∃ upd, (db.curricula.map
      (specCurriculumMove courseId curriculumId c₀.position q u)).find?
      (fun c => c.id == curriculumId) = some upd := by
    cases hcase : (db.curricula.map
        (specCurriculumMove courseId curriculumId c₀.position q u)).find?
        (fun c => c.id == curriculumId) with
    | some x => exact ⟨x, rfl⟩
    | none =>
      rw [List.find?_eq_none] at hcase
      refine absurd ?_ (hcase _ (List.mem_map_of_mem _ hc₀mem))
      rw [specCurriculumMove_id, hc₀id]
      exact beq_self_eq_true curriculumId
  obtain ⟨upd, hupd⟩ := hfound
  have hrun : updateCurriculum db courseId curriculumId (some au) u =
      (.ok 200 upd,
       { db with curricula := (db.curricula.map (specCurriculumMove courseId curriculumId c₀.position q u) : List Curriculum) }) := by
    unfold updateCurriculum
    simp only [hrole, hown, hfind, hupos, hlids, Bool.false_eq_true, if_false,
      shift_update_eq_specCurriculumMove, hupd]
  refine ⟨by rw [hrun]; rfl, by rw [hrun], by rw [hrun], ?_, ?_⟩
  · rw [hrun]
    intro c hmem hid
    dsimp only at hmem
    rw [List.mem_map] at hmem
    obtain ⟨x, hx, rfl⟩ := hmem
    unfold specCurriculumMove at hid ⊢
    by_cases hxid : (x.id == curriculumId) = true
    · rw [if_pos hxid]
      unfold applyUpdateCurriculum
      rw [hupos]
      rfl
    · exfalso
      apply hxid
      rw [beq_iff_eq]
      rw [if_neg hxid] at hid
      split_ifs at hid <;> exact hid
  · rw [hrun]
    dsimp only
    rw [List.filter_map]
    have hfpred : db.curricula.filter
        ((fun c => c.courseId == courseId) ∘
          specCurriculumMove courseId curriculumId c₀.position q u) =
        db.curricula.filter (fun c => c.courseId == courseId) :=
      List.filter_congr (fun a _ => by
        simp only [Function.comp]
        rw [specCurriculumMove_courseId])
    rw [hfpred, List.map_map]
    have hc₀cl : c₀ ∈ db.curricula.filter (fun c => c.courseId == courseId) := by
      rw [List.mem_filter]
      exact ⟨hc₀mem, by rw [beq_iff_eq]; exact hc₀course⟩
    have hclnodup : ((db.curricula.filter (fun c => c.courseId == courseId)).map
        (fun c => c.position)).Nodup :=
      (hperm.nodup_iff).mpr (intRange_nodup n)
    have hpointwise : ∀ c ∈ db.curricula.filter (fun c => c.courseId == courseId),
        ((fun c => c.position) ∘ specCurriculumMove courseId curriculumId c₀.position q u) c =
        movePos c₀.position q c.position := by
      intro c hccl
      have hccourse : c.courseId = courseId := by
        rw [List.mem_filter, beq_iff_eq] at hccl
        exact hccl.2
      by_cases hid : c.id = curriculumId
      · have hce : c = c₀ := by
          refine List.inj_on_of_nodup_map hids (List.mem_filter.mp hccl).1 hc₀mem ?_
          rw [hid, hc₀id]
        subst hce
        simp [Function.comp, specCurriculumMove, applyUpdateCurriculum, movePos, hupos, hc₀id]
      · have hposne : c.position ≠ c₀.position := by
          intro heq
          have : c = c₀ :=
            List.inj_on_of_nodup_map hclnodup hccl hc₀cl heq
          exact hid (by rw [this, hc₀id])
        simp only [Function.comp, specCurriculumMove, movePos, Bool.and_eq_true,
          beq_iff_eq, decide_eq_true_eq]
        rw [if_neg (by simpa using hid)]
        split_ifs <;> first | rfl | omega | (exfalso; simp_all)
    rw [List.map_congr_left hpointwise]
    have hmm : (db.curricula.filter (fun c => c.courseId == courseId)).map
        (fun c => movePos c₀.position q c.position) =
        ((db.curricula.filter (fun c => c.courseId == courseId)).map
          (fun c => c.position)).map (movePos c₀.position q) := by
      rw [List.map_map]; rfl
    rw [hmm]
    have hp : 0 ≤ c₀.position ∧ c₀.position < n := by
      have : c₀.position ∈ (db.curricula.filter (fun c => c.courseId == courseId)).map
          (fun c => c.position) := List.mem_map_of_mem _ hc₀cl
      exact mem_intRange.mp ((hperm.mem_iff).mp this)
    exact map_movePos_perm _ hp hq hperm

/-- C7: for a lesson-position update (and likewise a curriculum-section
position update) on a course whose positions form 0..n-1, moving the target
from p to q in [0, n-1] answers 200 and rewrites the table exactly as the
claim describes: the moved entity is assigned position q, exactly the other
course entities in the window between q and p (boundary included on the q
side) shift by one — incremented when q < p, decremented when q > p, with all
their other fields kept — everything else is untouched, and the course's
positions are again a permutation of 0..n-1. -/
theorem position_move_reindex_spec
    (db : LmsDB) (courseId lessonId curriculumId : String) (au : AuthUser)
    (uL : UpdateLessonData) (uC : UpdateCurriculumData)
    (l₀ : Lesson) (c₀ : Curriculum) (nL nC : Nat) (qL qC : Int)
    (hrole : (au.role != Role.INSTRUCTOR && au.role != Role.ADMIN) = false)
    (hown : (if au.role == Role.INSTRUCTOR then
              (checkCourseOwnership db courseId au).map (fun _ => ()) else .ok ()) = .ok ())
    (hfindL : db.lessons.find? (fun l => l.id == lessonId && l.courseId == courseId) = some l₀)
    (hidsL : (db.lessons.map (fun l => l.id)).Nodup)
    (hpermL : ((db.lessons.filter (fun l => l.courseId == courseId)).map
        (fun l => l.position)).Perm (intRange nL))
    (huposL : uL.position = some qL)
    (hqL : 0 ≤ qL ∧ qL < nL)
    (hfindC : db.curricula.find? (fun c => c.id == curriculumId && c.courseId == courseId)
      = some c₀)
    (hidsC : (db.curricula.map (fun c => c.id)).Nodup)
    (hpermC : ((db.curricula.filter (fun c => c.courseId == courseId)).map
        (fun c => c.position)).Perm (intRange nC))
    (huposC : uC.position = some qC)
    (hlidsC : uC.lessonIds = none)
    (hqC : 0 ≤ qC ∧ qC < nC) :
    ((updateLesson db courseId lessonId (some au) uL).1.statusOf = 200 ∧
     (updateLesson db courseId lessonId (some au) uL).2.lessons =
       db.lessons.map (specLessonMove courseId lessonId l₀.position qL uL) ∧
     (∀ l ∈ (updateLesson db courseId lessonId (some au) uL).2.lessons,
         l.id = lessonId → l.position = qL) ∧
     (((updateLesson db courseId lessonId (some au) uL).2.lessons.filter
         (fun l => l.courseId == courseId)).map (fun l => l.position)).Perm (intRange nL)) ∧
    ((updateCurriculum db courseId curriculumId (some au) uC).1.statusOf = 200 ∧
     (updateCurriculum db courseId curriculumId (some au) uC).2.curricula =
       db.curricula.map (specCurriculumMove courseId curriculumId c₀.position qC uC) ∧
     (updateCurriculum db courseId curriculumId (some au) uC).2.lessons = db.lessons ∧
     (∀ c ∈ (updateCurriculum db courseId curriculumId (some au) uC).2.curricula,
         c.id = curriculumId → c.position = qC) ∧
     (((updateCurriculum db courseId curriculumId (some au) uC).2.curricula.filter
         (fun c => c.courseId == courseId)).map (fun c => c.position)).Perm (intRange nC)) :=
  ⟨updateLesson_position_reindex db courseId lessonId au uL l₀ nL qL
     hrole hown hfindL hidsL hpermL huposL hqL,
   updateCurriculum_position_reindex db courseId curriculumId au uC c₀ nC qC
     hrole hown hfindC hidsC hpermC huposC hlidsC hqC⟩

/-- An ADMIN requester used by the reindexing witnesses. -/
def demoAdmin : AuthUser := { id := "adm", role := Role.ADMIN }

/-- A lesson of course c1 at the given position. -/
def demoLesson (i : String) (pos : Int) : Lesson :=
  { id := i, courseId := "c1", curriculumId := none, title := "Lesson",
    content := none, videoUrl := none, docUrl := none, duration := none,
    type := LessonType.ARTICLE, isPreview := false, position := pos }

/-- A curriculum section of course c1 at the given position. -/
def demoSection (i : String) (pos : Int) : Curriculum :=
  { id := i, courseId := "c1", title := "Section", description := none, position := pos }

/-- Course c1 with three lessons and three sections at positions 0, 1, 2. -/
def demoMoveDB : LmsDB :=
  { courses := [demoCourse],
    curricula := [demoSection "s0" 0, demoSection "s1" 1, demoSection "s2" 2],
    lessons := [demoLesson "l0" 0, demoLesson "l1" 1, demoLesson "l2" 2],
    quizzes := [], questions := [], reviews := [], enrollments := [] }

/-- Witness for position_move_reindex_spec: an admin moves lesson l2 and
section s2 from position 2 to position 0 in a three-element course. -/
theorem position_move_reindex_spec_witness :
    ((updateLesson demoMoveDB "c1" "l2" (some demoAdmin) { position := some 0 }).1.statusOf = 200 ∧
     (updateLesson demoMoveDB "c1" "l2" (some demoAdmin) { position := some 0 }).2.lessons =
       demoMoveDB.lessons.map (specLessonMove "c1" "l2" (demoLesson "l2" 2).position 0
         { position := some 0 }) ∧
     (∀ l ∈ (updateLesson demoMoveDB "c1" "l2" (some demoAdmin) { position := some 0 }).2.lessons,
         l.id = "l2" → l.position = 0) ∧
     (((updateLesson demoMoveDB "c1" "l2" (some demoAdmin) { position := some 0 }).2.lessons.filter
         (fun l => l.courseId == "c1")).map (fun l => l.position)).Perm (intRange 3)) ∧
    ((updateCurriculum demoMoveDB "c1" "s2" (some demoAdmin) { position := some 0 }).1.statusOf = 200 ∧
     (updateCurriculum demoMoveDB "c1" "s2" (some demoAdmin) { position := some 0 }).2.curricula =
       demoMoveDB.curricula.map (specCurriculumMove "c1" "s2" (demoSection "s2" 2).position 0
         { position := some 0 }) ∧
     (updateCurriculum demoMoveDB "c1" "s2" (some demoAdmin) { position := some 0 }).2.lessons =
       demoMoveDB.lessons ∧
     (∀ c ∈ (updateCurriculum demoMoveDB "c1" "s2" (some demoAdmin) { position := some 0 }).2.curricula,
         c.id = "s2" → c.position = 0) ∧
     (((updateCurriculum demoMoveDB "c1" "s2" (some demoAdmin) { position := some 0 }).2.curricula.filter
         (fun c => c.courseId == "c1")).map (fun c => c.position)).Perm (intRange 3)) :=
  position_move_reindex_spec demoMoveDB "c1" "l2" "s2" demoAdmin
    { position := some 0 } { position := some 0 }
    (demoLesson "l2" 2) (demoSection "s2" 2) 3 3 0 0
    (by decide) rfl (by decide) (by decide) (by decide) rfl (by decide)
    (by decide) (by decide) (by decide) rfl rfl (by decide)

/-! ## C8 plumbing: deletion reindexing -/

/-- Removing the unique element with a given projection value is the same as
erasing that element, when the projection is duplicate-free. -/
theorem filter_ne_eq_erase {α : Type} [DecidableEq α] (f : α → String) :
    ∀ (l : List α) (a : α), a ∈ l → (l.map f).Nodup →
      l.filter (fun x => f x != f a) = l.erase a := by
  intro l a ha hnd
  induction l with
  | nil => cases ha
  | cons b t ih =>
    rw [List.map_cons, List.nodup_cons] at hnd
    obtain ⟨hb, hnd'⟩ := hnd
    rcases List.mem_cons.mp ha with rfl | hat
    · rw [List.filter_cons, if_neg (by simp), List.erase_cons_head]
      refine List.filter_eq_self.mpr (fun x hx => ?_)
      simp only [bne_iff_ne, ne_eq, decide_eq_true_eq]
      intro he
      exact hb (he ▸ List.mem_map_of_mem f hx)
    · have hfb : f b ≠ f a := fun he => hb (he ▸ List.mem_map_of_mem f hat)
      rw [List.filter_cons, if_pos (by simpa using hfb),
        List.erase_cons_tail (by simpa using fun he => hfb (congrArg f he)), ih hat hnd']

/-- The deletion shift as the specification describes it: course entities
above the vacated position slide down by one, keeping every other field;
everything else is untouched. -/
def specLessonDelete (courseId : String) (p : Int) (l : Lesson) : Lesson :=
  if l.courseId == courseId && p < l.position then
    { l with position := l.position - 1 }
  else l

/-- Curriculum version of specLessonDelete. -/
def specCurriculumDelete (courseId : String) (p : Int) (c : Curriculum) : Curriculum :=
  if c.courseId == courseId && p < c.position then
    { c with position := c.position - 1 }
  else c

theorem specLessonDelete_courseId (courseId : String) (p : Int) (l : Lesson) :
    (specLessonDelete courseId p l).courseId = l.courseId := by
  unfold specLessonDelete
  split_ifs <;> rfl

theorem specCurriculumDelete_courseId (courseId : String) (p : Int) (c : Curriculum) :
    (specCurriculumDelete courseId p c).courseId = c.courseId := by
  unfold specCurriculumDelete
  split_ifs <;> rfl

/-- Helper: the lesson-half of claim C8.  Deleting a lesson at position p
from a course whose n+1 positions form 0..n answers 200, removes exactly that
row, decrements precisely the course lessons above p (keeping their other
fields and all other rows), and leaves the positions a permutation of
0..n-1. -/
theorem deleteLesson_position_reindex
    (db : LmsDB) (courseId lessonId : String) (au : AuthUser)
    (l₀ : Lesson) (n : Nat)
    (hrole : (au.role != Role.INSTRUCTOR && au.role != Role.ADMIN) = false)
    (hown : (if au.role == Role.INSTRUCTOR then
              (checkCourseOwnership db courseId au).map (fun _ => ()) else .ok ()) = .ok ())
    (hfind : db.lessons.find? (fun l => l.id == lessonId && l.courseId == courseId) = some l₀)
    (hids : (db.lessons.map (fun l => l.id)).Nodup)
    (hperm : ((db.lessons.filter (fun l => l.courseId == courseId)).map
        (fun l => l.position)).Perm (intRange (n + 1))) :
    (deleteLesson db courseId lessonId (some au)).1.statusOf = 200 ∧
    (deleteLesson db courseId lessonId (some au)).2.lessons =
      (db.lessons.filter (fun l => l.id != lessonId)).map
        (specLessonDelete courseId l₀.position) ∧
    (((deleteLesson db courseId lessonId (some au)).2.lessons.filter
        (fun l => l.courseId == courseId)).map (fun l => l.position)).Perm (intRange n) := by
  have hl₀mem : l₀ ∈ db.lessons := List.mem_of_find?_eq_some hfind
  have hl₀pred := List.find?_some hfind
  rw [Bool.and_eq_true, beq_iff_eq, beq_iff_eq] at hl₀pred
  obtain ⟨hl₀id, hl₀course⟩ := hl₀pred
  have hrun : deleteLesson db courseId lessonId (some au) =
      (.ok 200 "Lesson deleted successfully and positions reordered",
       { db with lessons := ((db.lessons.filter (fun l => l.id != lessonId)).map (specLessonDelete courseId l₀.position) : List Lesson) }) := by
    unfold deleteLesson
    simp only [hrole, hown, hfind, Bool.false_eq_true, if_false]
    rfl
  refine ⟨by rw [hrun]; rfl, by rw [hrun], ?_⟩
  rw [hrun]
  dsimp only
  rw [List.filter_map]
  have hfpred : (db.lessons.filter (fun l => l.id != lessonId)).filter
      ((fun l => l.courseId == courseId) ∘ specLessonDelete courseId l₀.position) =
      (db.lessons.filter (fun l => l.id != lessonId)).filter
        (fun l => l.courseId == courseId) :=
    List.filter_congr (fun a _ => by
      simp only [Function.comp]
      rw [specLessonDelete_courseId])
  rw [hfpred]
  have hcomm : (db.lessons.filter (fun l => l.id != lessonId)).filter
      (fun l => l.courseId == courseId) =
      (db.lessons.filter (fun l => l.courseId == courseId)).filter
        (fun l => l.id != lessonId) := by
    rw [List.filter_filter, List.filter_filter]
    exact List.filter_congr (fun a _ => Bool.and_comm _ _)
  rw [hcomm]
  have hclids : ((db.lessons.filter (fun l => l.courseId == courseId)).map
      (fun l => l.id)).Nodup := by
    have hsub : List.Sublist
        ((db.lessons.filter (fun l => l.courseId == courseId)).map (fun l => l.id))
        (db.lessons.map (fun l => l.id)) :=
      (List.filter_sublist _).map _
    exact hids.sublist hsub
  have hl₀cl : l₀ ∈ db.lessons.filter (fun l => l.courseId == courseId) := by
    rw [List.mem_filter]
    exact ⟨hl₀mem, by rw [beq_iff_eq]; exact hl₀course⟩
  have herase : (db.lessons.filter (fun l => l.courseId == courseId)).filter
      (fun l => l.id != lessonId) =
      (db.lessons.filter (fun l => l.courseId == courseId)).erase l₀ := by
    have := filter_ne_eq_erase (fun l => l.id)
      (db.lessons.filter (fun l => l.courseId == courseId)) l₀ hl₀cl hclids
    rw [← this]
    exact List.filter_congr (fun a _ => by simp only [hl₀id])
  rw [herase]
  rw [List.map_map]
  have hpointwise : ∀ l ∈ (db.lessons.filter (fun l => l.courseId == courseId)).erase l₀,
      ((fun l => l.position) ∘ specLessonDelete courseId l₀.position) l =
      delPos l₀.position l.position := by
    intro l hl
    have hlcl : l ∈ db.lessons.filter (fun l => l.courseId == courseId) :=
      List.mem_of_mem_erase hl
    have hlcourse : l.courseId = courseId := by
      rw [List.mem_filter, beq_iff_eq] at hlcl
      exact hlcl.2
    simp only [Function.comp, specLessonDelete, delPos, Bool.and_eq_true,
      beq_iff_eq, decide_eq_true_eq]
    split_ifs <;> first | rfl | omega | (exfalso; simp_all)
  rw [List.map_congr_left hpointwise]
  have hmm : ((db.lessons.filter (fun l => l.courseId == courseId)).erase l₀).map
      (fun l => delPos l₀.position l.position) =
      (((db.lessons.filter (fun l => l.courseId == courseId)).erase l₀).map
        (fun l => l.position)).map (delPos l₀.position) := by
    rw [List.map_map]; rfl
  rw [hmm]
  have hconsperm : ((db.lessons.filter (fun l => l.courseId == courseId)).map
      (fun l => l.position)).Perm
      (l₀.position :: ((db.lessons.filter (fun l => l.courseId == courseId)).erase l₀).map
        (fun l => l.position)) := by
    have := (List.perm_cons_erase hl₀cl).map (fun l : Lesson => l.position)
    simpa using this
  have herased : (((db.lessons.filter (fun l => l.courseId == courseId)).erase l₀).map
      (fun l => l.position)).Perm ((intRange (n + 1)).erase l₀.position) := by
    have hx := (hconsperm.symm.trans hperm)
    exact (List.cons_perm_iff_perm_erase.mp hx).2
  have hp : 0 ≤ l₀.position ∧ l₀.position ≤ n := by
    have : l₀.position ∈ (db.lessons.filter (fun l => l.courseId == courseId)).map
        (fun l => l.position) := List.mem_map_of_mem _ hl₀cl
    have hb := mem_intRange.mp ((hperm.mem_iff).mp this)
    omega
  exact map_delPos_perm _ hp herased

/-- Helper: the curriculum-half of claim C8, mirroring
deleteLesson_position_reindex (the section must hold no lessons, or the
handler refuses with 400 before deleting). -/
theorem deleteCurriculum_position_reindex
    (db : LmsDB) (courseId curriculumId : String) (au : AuthUser)
    (c₀ : Curriculum) (n : Nat)
    (hrole : (au.role != Role.INSTRUCTOR && au.role != Role.ADMIN) = false)
    (hown : (if au.role == Role.INSTRUCTOR then
              (checkCourseOwnership db courseId au).map (fun _ => ()) else .ok ()) = .ok ())
    (hfind : db.curricula.find? (fun c => c.id == curriculumId && c.courseId == courseId)
      = some c₀)
    (hempty : (db.lessons.filter (fun l => l.curriculumId == some curriculumId)).length = 0)
    (hids : (db.curricula.map (fun c => c.id)).Nodup)
    (hperm : ((db.curricula.filter (fun c => c.courseId == courseId)).map
        (fun c => c.position)).Perm (intRange (n + 1))) :
    (deleteCurriculum db courseId curriculumId (some au)).1.statusOf = 200 ∧
    (deleteCurriculum db courseId curriculumId (some au)).2.curricula =
      (db.curricula.filter (fun c => c.id != curriculumId)).map
        (specCurriculumDelete courseId c₀.position) ∧
    (((deleteCurriculum db courseId curriculumId (some au)).2.curricula.filter
        (fun c => c.courseId == courseId)).map (fun c => c.position)).Perm (intRange n) := by
  have hc₀mem : c₀ ∈ db.curricula := List.mem_of_find?_eq_some hfind
  have hc₀pred := List.find?_some hfind
  rw [Bool.and_eq_true, beq_iff_eq, beq_iff_eq] at hc₀pred
  obtain ⟨hc₀id, hc₀course⟩ := hc₀pred
  have hrun : deleteCurriculum db courseId curriculumId (some au) =
      (.ok 200 c₀,
       { db with curricula := ((db.curricula.filter (fun c => c.id != curriculumId)).map (specCurriculumDelete courseId c₀.position) : List Curriculum) }) := by
    unfold deleteCurriculum
    simp only [hrole, hown, hfind, Bool.false_eq_true, if_false]
    rw [if_neg (by omega)]
    rfl
  refine ⟨by rw [hrun]; rfl, by rw [hrun], ?_⟩
  rw [hrun]
  dsimp only
  rw [List.filter_map]
  have hfpred : (db.curricula.filter (fun c => c.id != curriculumId)).filter
      ((fun c => c.courseId == courseId) ∘ specCurriculumDelete courseId c₀.position) =
      (db.curricula.filter (fun c => c.id != curriculumId)).filter
        (fun c => c.courseId == courseId) :=
    List.filter_congr (fun a _ => by
      simp only [Function.comp]
      rw [specCurriculumDelete_courseId])
  rw [hfpred]
  have hcomm : (db.curricula.filter (fun c => c.id != curriculumId)).filter
      (fun c => c.courseId == courseId) =
      (db.curricula.filter (fun c => c.courseId == courseId)).filter
        (fun c => c.id != curriculumId) := by
    rw [List.filter_filter, List.filter_filter]
    exact List.filter_congr (fun a _ => Bool.and_comm _ _)
  rw [hcomm]
  have hclids : ((db.curricula.filter (fun c => c.courseId == courseId)).map
      (fun c => c.id)).Nodup := by
    have hsub : List.Sublist
        ((db.curricula.filter (fun c => c.courseId == courseId)).map (fun c => c.id))
        (db.curricula.map (fun c => c.id)) :=
      (List.filter_sublist _).map _
    exact hids.sublist hsub
  have hc₀cl : c₀ ∈ db.curricula.filter (fun c => c.courseId == courseId) := by
    rw [List.mem_filter]
    exact ⟨hc₀mem, by rw [beq_iff_eq]; exact hc₀course⟩
  have herase : (db.curricula.filter (fun c => c.courseId == courseId)).filter
      (fun c => c.id != curriculumId) =
      (db.curricula.filter (fun c => c.courseId == courseId)).erase c₀ := by
    have := filter_ne_eq_erase (fun c => c.id)
      (db.curricula.filter (fun c => c.courseId == courseId)) c₀ hc₀cl hclids
    rw [← this]
    exact List.filter_congr (fun a _ => by simp only [hc₀id])
  rw [herase]
  rw [List.map_map]
  have hpointwise : ∀ c ∈ (db.curricula.filter (fun c => c.courseId == courseId)).erase c₀,
      ((fun c => c.position) ∘ specCurriculumDelete courseId c₀.position) c =
      delPos c₀.position c.position := by
    intro c hc
    have hccl : c ∈ db.curricula.filter (fun c => c.courseId == courseId) :=
      List.mem_of_mem_erase hc
    have hccourse : c.courseId = courseId := by
      rw [List.mem_filter, beq_iff_eq] at hccl
      exact hccl.2
    simp only [Function.comp, specCurriculumDelete, delPos, Bool.and_eq_true,
      beq_iff_eq, decide_eq_true_eq]
    split_ifs <;> first | rfl | omega | (exfalso; simp_all)
  rw [List.map_congr_left hpointwise]
  have hmm : ((db.curricula.filter (fun c => c.courseId == courseId)).erase c₀).map
      (fun c => delPos c₀.position c.position) =
      (((db.curricula.filter (fun c => c.courseId == courseId)).erase c₀).map
        (fun c => c.position)).map (delPos c₀.position) := by
    rw [List.map_map]; rfl
  rw [hmm]
  have hconsperm : ((db.curricula.filter (fun c => c.courseId == courseId)).map
      (fun c => c.position)).Perm
      (c₀.position :: ((db.curricula.filter (fun c => c.courseId == courseId)).erase c₀).map
        (fun c => c.position)) := by
    have := (List.perm_cons_erase hc₀cl).map (fun c : Curriculum => c.position)
    simpa using this
  have herased : (((db.curricula.filter (fun c => c.courseId == courseId)).erase c₀).map
      (fun c => c.position)).Perm ((intRange (n + 1)).erase c₀.position) := by
    have hx := (hconsperm.symm.trans hperm)
    exact (List.cons_perm_iff_perm_erase.mp hx).2
  have hp : 0 ≤ c₀.position ∧ c₀.position ≤ n := by
    have : c₀.position ∈ (db.curricula.filter (fun c => c.courseId == courseId)).map
        (fun c => c.position) := List.mem_map_of_mem _ hc₀cl
    have hb := mem_intRange.mp ((hperm.mem_iff).mp this)
    omega
  exact map_delPos_perm _ hp herased

/-- C8: deleting the lesson (and likewise the curriculum section) at
position p from a course whose n+1 positions form the contiguous range 0..n
removes exactly that row and decrements by one the position of precisely the
remaining course entities with position > p — entities at or below p and all
non-position fields of the shifted ones are unchanged, rows of other courses
are untouched — so the positions are again the contiguous range 0..n-1. -/
theorem position_delete_reindex_spec
    (db : LmsDB) (courseId lessonId curriculumId : String) (au : AuthUser)
    (l₀ : Lesson) (c₀ : Curriculum) (nL nC : Nat)
    (hrole : (au.role != Role.INSTRUCTOR && au.role != Role.ADMIN) = false)
    (hown : (if au.role == Role.INSTRUCTOR then
              (checkCourseOwnership db courseId au).map (fun _ => ()) else .ok ()) = .ok ())
    (hfindL : db.lessons.find? (fun l => l.id == lessonId && l.courseId == courseId) = some l₀)
    (hidsL : (db.lessons.map (fun l => l.id)).Nodup)
    (hpermL : ((db.lessons.filter (fun l => l.courseId == courseId)).map
        (fun l => l.position)).Perm (intRange (nL + 1)))
    (hfindC : db.curricula.find? (fun c => c.id == curriculumId && c.courseId == courseId)
      = some c₀)
    (hemptyC : (db.lessons.filter (fun l => l.curriculumId == some curriculumId)).length = 0)
    (hidsC : (db.curricula.map (fun c => c.id)).Nodup)
    (hpermC : ((db.curricula.filter (fun c => c.courseId == courseId)).map
        (fun c => c.position)).Perm (intRange (nC + 1))) :
    ((deleteLesson db courseId lessonId (some au)).1.statusOf = 200 ∧
     (deleteLesson db courseId lessonId (some au)).2.lessons =
       (db.lessons.filter (fun l => l.id != lessonId)).map
         (specLessonDelete courseId l₀.position) ∧
     (((deleteLesson db courseId lessonId (some au)).2.lessons.filter
         (fun l => l.courseId == courseId)).map (fun l => l.position)).Perm (intRange nL)) ∧
    ((deleteCurriculum db courseId curriculumId (some au)).1.statusOf = 200 ∧
     (deleteCurriculum db courseId curriculumId (some au)).2.curricula =
       (db.curricula.filter (fun c => c.id != curriculumId)).map
         (specCurriculumDelete courseId c₀.position) ∧
     (((deleteCurriculum db courseId curriculumId (some au)).2.curricula.filter
         (fun c => c.courseId == courseId)).map (fun c => c.position)).Perm (intRange nC)) :=
  ⟨deleteLesson_position_reindex db courseId lessonId au l₀ nL hrole hown hfindL hidsL hpermL,
   deleteCurriculum_position_reindex db courseId curriculumId au c₀ nC
     hrole hown hfindC hemptyC hidsC hpermC⟩

/-- Witness for position_delete_reindex_spec: an admin deletes lesson l1 and
section s1 (both at position 1) from the three-element course. -/
theorem position_delete_reindex_spec_witness :
    ((deleteLesson demoMoveDB "c1" "l1" (some demoAdmin)).1.statusOf = 200 ∧
     (deleteLesson demoMoveDB "c1" "l1" (some demoAdmin)).2.lessons =
       (demoMoveDB.lessons.filter (fun l => l.id != "l1")).map
         (specLessonDelete "c1" (demoLesson "l1" 1).position) ∧
     (((deleteLesson demoMoveDB "c1" "l1" (some demoAdmin)).2.lessons.filter
         (fun l => l.courseId == "c1")).map (fun l => l.position)).Perm (intRange 2)) ∧
    ((deleteCurriculum demoMoveDB "c1" "s1" (some demoAdmin)).1.statusOf = 200 ∧
     (deleteCurriculum demoMoveDB "c1" "s1" (some demoAdmin)).2.curricula =
       (demoMoveDB.curricula.filter (fun c => c.id != "s1")).map
         (specCurriculumDelete "c1" (demoSection "s1" 1).position) ∧
     (((deleteCurriculum demoMoveDB "c1" "s1" (some demoAdmin)).2.curricula.filter
         (fun c => c.courseId == "c1")).map (fun c => c.position)).Perm (intRange 2)) :=
  position_delete_reindex_spec demoMoveDB "c1" "l1" "s1" demoAdmin
    (demoLesson "l1" 1) (demoSection "s1" 1) 2 2
    (by decide) rfl (by decide) (by decide) (by decide)
    (by decide) (by decide) (by decide) (by decide)

end LmsBackend
